import Mathlib

/-!
Verification development for the niivue document persistence and scene-state
subsystem (`src/nvdocument.ts`, here `src/unnamed/part_000`) and the connectome
graph operations (`src/nvconnectome.ts`).

Embedding conventions:
* JavaScript numbers are modelled as `JsNum` (a rational together with the
  non-finite values `posInf`, `negInf`, `nan`) where non-finite values can
  occur, and as plain `ℚ` where the code only ever handles finite values
  (scene angles, opacities, connectome node indices and coordinates; node
  indices are additionally small integers produced by loop counters, so
  IEEE-754 addition on them is exact and `Int`/`ℚ` arithmetic is faithful).
* Mutation of `this` is modelled by explicit state passing: a method that
  mutates the document takes and returns an `NVDocument` value.
* JavaScript array objects stored inside the options record are modelled as
  references (`Ref`, an index into an explicit `Store` of arrays), because the
  source shares those array objects across records (`{ ...opts }` copies the
  reference, not the array).  Arrays whose sharing is never observed by the
  verified properties (scene vectors, mesh geometry) are modelled as plain
  lists.
* Fallible code (`throw`) is modelled with `Except String`.
* External collaborators (`NVUtilities`, `NVImage` codecs, the structured
  clone serializer, `JSON.stringify`) are modelled as identities on the
  already-structured values, as documented at each definition.
-/

/-- Model of a JavaScript number: a finite rational or one of the three
non-finite IEEE values. -/
inductive JsNum where
  | fin (q : ℚ)
  | posInf
  | negInf
  | nan
deriving DecidableEq, Repr

/-- JavaScript falsiness of a number: `0` and `NaN` are falsy. -/
def JsNum.falsy : JsNum → Bool
  | .fin q => q == 0
  | .nan => true
  | _ => false

/-- Model of the `x || NaN` coercion applied to calibration bounds in
`NVDocument.json`: a falsy number (0 or NaN) becomes NaN. -/
def orNaN (x : JsNum) : JsNum := if x.falsy then .nan else x

/-- The `meshThicknessOn2D` option has TypeScript type `number | string`. -/
inductive MeshThickness where
  | num (v : JsNum)
  | str (s : String)
deriving DecidableEq, Repr

/-- Enum `SLICE_TYPE` from the source. -/
inductive SLICE_TYPE where
  | AXIAL | CORONAL | SAGITTAL | MULTIPLANAR | RENDER
deriving DecidableEq, Repr

/-- Enum `SHOW_RENDER` from the source. -/
inductive SHOW_RENDER where
  | NEVER | ALWAYS | AUTO
deriving DecidableEq, Repr

/-- Enum `MULTIPLANAR_TYPE` from the source. -/
inductive MULTIPLANAR_TYPE where
  | AUTO | COLUMN | GRID | ROW
deriving DecidableEq, Repr

/-- Enum `DRAG_MODE` from the source. -/
inductive DRAG_MODE where
  | none | contrast | measurement | pan | slicer3D | callbackOnly
deriving DecidableEq, Repr

/-- Enum `NVIMAGE_TYPE` from the `NVImage` collaborator; only the `NII`
marker is ever written by the verified code. -/
inductive NVIMAGE_TYPE where
  | NII | UNKNOWN
deriving DecidableEq, Repr

/-- A reference to a JavaScript array object: an index into a `Store`. -/
abbrev Ref := Nat

/-- The heap of numeric-array objects referenced by option records. -/
abbrev Store := List (List ℚ)

/-- Reads the array behind a reference (an out-of-store reference reads as the
empty array; the verified properties always stay in range). -/
def readArr (σ : Store) (r : Ref) : List ℚ := σ.getD r []

/-- In-place mutation of the array object behind a reference, e.g.
`o.backColor[0] = 1` performed through any alias of that array. -/
def storeWrite (σ : Store) (r : Ref) (v : List ℚ) : Store := σ.set r v

/-- The `NVConfigOptions` record from the source.  Numeric fields that are
always finite are `ℚ`; `limitFrames4D` (default `NaN`) is `JsNum`;
`meshThicknessOn2D` is `number | string`; `isAntiAlias` is `boolean | null`;
array-valued fields are `Ref`s into a `Store` (see module docstring). -/
structure NVConfigOptions where
  textHeight : ℚ
  colorbarHeight : ℚ
  crosshairWidth : ℚ
  crosshairGap : ℚ
  rulerWidth : ℚ
  show3Dcrosshair : Bool
  backColor : Ref
  crosshairColor : Ref
  fontColor : Ref
  selectionBoxColor : Ref
  clipPlaneColor : Ref
  clipThick : ℚ
  clipVolumeLow : Ref
  clipVolumeHigh : Ref
  rulerColor : Ref
  colorbarMargin : ℚ
  trustCalMinMax : Bool
  clipPlaneHotKey : String
  viewModeHotKey : String
  doubleTouchTimeout : ℚ
  longTouchTimeout : ℚ
  keyDebounceTime : ℚ
  isNearestInterpolation : Bool
  atlasOutline : ℚ
  isRuler : Bool
  isColorbar : Bool
  isOrientCube : Bool
  multiplanarPadPixels : ℚ
  multiplanarForceRender : Bool
  multiplanarShowRender : SHOW_RENDER
  isRadiologicalConvention : Bool
  meshThicknessOn2D : MeshThickness
  dragMode : DRAG_MODE
  yoke3Dto2DZoom : Bool
  isDepthPickMesh : Bool
  isCornerOrientationText : Bool
  sagittalNoseLeft : Bool
  isSliceMM : Bool
  isV1SliceShader : Bool
  isHighResolutionCapable : Bool
  logLevel : String
  loadingText : String
  isForceMouseClickToVoxelCenters : Bool
  dragAndDropEnabled : Bool
  drawingEnabled : Bool
  penValue : ℚ
  floodFillNeighbors : ℚ
  isFilledPen : Bool
  thumbnail : String
  maxDrawUndoBitmaps : ℚ
  sliceType : SLICE_TYPE
  isAntiAlias : Option Bool
  isAdditiveBlend : Bool
  isResizeCanvas : Bool
  meshXRay : ℚ
  limitFrames4D : JsNum
  showLegend : Bool
  legendBackgroundColor : Ref
  legendTextColor : Ref
  multiplanarLayout : MULTIPLANAR_TYPE
  renderOverlayBlend : ℚ
  sliceMosaicString : String
  centerMosaic : Bool
  clickToSegment : Bool
  clickToSegmentRadius : ℚ
  clickToSegmentSteps : ℚ
  clickToSegmentBright : Bool

/-- The array literals appearing inside `DEFAULT_OPTIONS`, allocated once
(the source module allocates each literal exactly once, and every record
spread of `DEFAULT_OPTIONS` shares them).  Order: backColor, crosshairColor,
fontColor, selectionBoxColor, clipPlaneColor, clipVolumeLow, clipVolumeHigh,
rulerColor, legendBackgroundColor, legendTextColor. -/
def DEFAULT_STORE : Store :=
  [[0, 0, 0, 1], [1, 0, 0, 1], [0.5, 0.5, 0.5, 1], [1, 1, 1, 0.5],
   [0.7, 0, 0.7, 0.5], [0, 0, 0], [1, 1, 1], [1, 0, 0, 0.8],
   [0.3, 0.3, 0.3, 0.5], [1, 1, 1, 1]]

/-- Constant `DEFAULT_OPTIONS` from the source. -/
def DEFAULT_OPTIONS : NVConfigOptions where
  textHeight := 0.06
  colorbarHeight := 0.05
  crosshairWidth := 1
  crosshairGap := 0
  rulerWidth := 4
  show3Dcrosshair := false
  backColor := 0
  crosshairColor := 1
  fontColor := 2
  selectionBoxColor := 3
  clipPlaneColor := 4
  clipThick := 2
  clipVolumeLow := 5
  clipVolumeHigh := 6
  rulerColor := 7
  colorbarMargin := 0.05
  trustCalMinMax := true
  clipPlaneHotKey := "KeyC"
  viewModeHotKey := "KeyV"
  doubleTouchTimeout := 500
  longTouchTimeout := 1000
  keyDebounceTime := 50
  isNearestInterpolation := false
  atlasOutline := 0
  isRuler := false
  isColorbar := false
  isOrientCube := false
  multiplanarPadPixels := 0
  multiplanarForceRender := false
  multiplanarShowRender := SHOW_RENDER.AUTO
  isRadiologicalConvention := false
  meshThicknessOn2D := MeshThickness.num JsNum.posInf
  dragMode := DRAG_MODE.contrast
  yoke3Dto2DZoom := false
  isDepthPickMesh := false
  isCornerOrientationText := false
  sagittalNoseLeft := false
  isSliceMM := false
  isV1SliceShader := false
  isHighResolutionCapable := true
  logLevel := "info"
  loadingText := "waiting for images..."
  isForceMouseClickToVoxelCenters := false
  dragAndDropEnabled := true
  drawingEnabled := false
  penValue := 1
  floodFillNeighbors := 6
  isFilledPen := false
  thumbnail := ""
  maxDrawUndoBitmaps := 8
  sliceType := SLICE_TYPE.MULTIPLANAR
  isAntiAlias := none
  isAdditiveBlend := false
  isResizeCanvas := true
  meshXRay := 0
  limitFrames4D := JsNum.nan
  showLegend := true
  legendBackgroundColor := 8
  legendTextColor := 9
  multiplanarLayout := MULTIPLANAR_TYPE.AUTO
  renderOverlayBlend := 1
  sliceMosaicString := ""
  centerMosaic := false
  clickToSegment := false
  clickToSegmentRadius := 2
  clickToSegmentSteps := 10
  clickToSegmentBright := true

/-- The `SceneData` record from the source.  All scene numbers are finite in
every verified scenario, so they are modelled as `ℚ`. -/
structure SceneData where
  azimuth : ℚ
  elevation : ℚ
  crosshairPos : ℚ × ℚ × ℚ
  clipPlane : List ℚ
  clipPlaneDepthAziElev : List ℚ
  volScaleMultiplier : ℚ
  pan2Dxyzmm : ℚ × ℚ × ℚ × ℚ
  clipThick : ℚ
  clipVolumeLow : List ℚ
  clipVolumeHigh : List ℚ
deriving DecidableEq, Repr

/-- Constant `INITIAL_SCENE_DATA` from the source (`vec3.create()` is the zero vector,
`vec4.create()` the zero 4-vector). -/
def INITIAL_SCENE_DATA : SceneData where
  azimuth := 110
  elevation := 10
  crosshairPos := (0, 0, 0)
  clipPlane := [0, 0, 0, 0]
  clipPlaneDepthAziElev := [2, 0, 0]
  volScaleMultiplier := 1
  pan2Dxyzmm := (0, 0, 0, 0)
  clipThick := 2
  clipVolumeLow := [0, 0, 0]
  clipVolumeHigh := [1, 1, 1]

/-- An observer invocation performed by a scene accessor.  The scene's
observer slots (`onAzimuthElevationChange`, `onZoom3DChange`) are modelled by
recording the calls a setter makes, in order. -/
inductive SceneEvent where
  | azimuthElevation (azimuth elevation : ℚ)
  | zoom3D (scale : ℚ)
deriving DecidableEq, Repr

/-- Setter `renderAzimuth` of the scene object built in the `NVDocument`
constructor: writes the backing field, then calls
`onAzimuthElevationChange(sceneData.azimuth, sceneData.elevation)` (the
observer slot always holds a function, so the truthiness guard passes). -/
def setRenderAzimuth (s : SceneData) (azimuth : ℚ) : SceneData × List SceneEvent :=
  let s₁ := { s with azimuth := azimuth }
  (s₁, [SceneEvent.azimuthElevation s₁.azimuth s₁.elevation])

/-- Setter `renderElevation`: writes the backing field, then calls
`onAzimuthElevationChange` with the current pair. -/
def setRenderElevation (s : SceneData) (elevation : ℚ) : SceneData × List SceneEvent :=
  let s₁ := { s with elevation := elevation }
  (s₁, [SceneEvent.azimuthElevation s₁.azimuth s₁.elevation])

/-- Setter `volScaleMultiplier`: writes the backing field, then calls
`onZoom3DChange(scale)`. -/
def setVolScaleMultiplier (s : SceneData) (scale : ℚ) : SceneData × List SceneEvent :=
  ({ s with volScaleMultiplier := scale }, [SceneEvent.zoom3D scale])

/-- Setter `crosshairPos`: a plain field write, no observer call. -/
def setCrosshairPos (s : SceneData) (crosshairPos : ℚ × ℚ × ℚ) : SceneData × List SceneEvent :=
  ({ s with crosshairPos := crosshairPos }, [])

/-- Setter `clipPlane`: a plain field write, no observer call. -/
def setClipPlane (s : SceneData) (clipPlane : List ℚ) : SceneData × List SceneEvent :=
  ({ s with clipPlane := clipPlane }, [])

/-- Setter `clipPlaneDepthAziElev`: a plain field write, no observer call. -/
def setClipPlaneDepthAziElev (s : SceneData) (v : List ℚ) : SceneData × List SceneEvent :=
  ({ s with clipPlaneDepthAziElev := v }, [])

/-- Setter `pan2Dxyzmm`: a plain field write, no observer call. -/
def setPan2Dxyzmm (s : SceneData) (pan2Dxyzmm : ℚ × ℚ × ℚ × ℚ) : SceneData × List SceneEvent :=
  ({ s with pan2Dxyzmm := pan2Dxyzmm }, [])

/-- The subset of `ImageFromUrlOptions` (collaborator type) that the document
code constructs, reads and writes: exactly the fields of the default record
literal in `NVDocument.json`. -/
structure ImageOptions where
  name : String
  url : String
  urlImageData : String
  colormap : String
  opacity : ℚ
  pairedImgData : Option (List Nat)
  cal_min : JsNum
  cal_max : JsNum
  trustCalMinMax : Bool
  percentileFrac : ℚ
  ignoreZeroVoxels : Bool
  useQFormNotSForm : Bool
  colormapNegative : String
  colormapLabel : Option String
  imageType : Option NVIMAGE_TYPE
  frame4D : ℚ
  limitFrames4D : JsNum
  alphaThreshold : Bool
  cal_minNeg : JsNum
  cal_maxNeg : JsNum
  colorbarVisible : Bool
deriving DecidableEq, Repr

/-- The interface of the `NVImage` collaborator that the document code uses:
an identifier, the live display fields read back at export time, and the
encoded voxel payload. -/
structure NVImage where
  id : String
  colormap : String
  colormapLabel : Option String
  opacity : ℚ
  cal_min : JsNum
  cal_max : JsNum
  payload : List Nat
deriving DecidableEq, Repr

/-- Modelled collaborator `NVImage.toUint8Array`: with no argument it returns
the image's own encoded bytes; given a drawing bitmap it encodes that bitmap
with the image's header.  The byte-level codec is abstracted as the identity
on the stored byte list (no verified property inspects the bytes). -/
def NVImage.toUint8Array (v : NVImage) : Option (List Nat) → List Nat
  | none => v.payload
  | some bitmap => bitmap

/-- Modelled collaborator `NVUtilities.uint8tob64`, abstracted as the identity
on byte lists (no verified property inspects the encoded text). -/
def uint8tob64 (bytes : List Nat) : List Nat := bytes

/-- Mesh type marker from the `NVMesh` collaborator; the document code only
distinguishes `CONNECTOME` from everything else. -/
inductive MeshType where
  | MESH | CONNECTOME
deriving DecidableEq, Repr

/-- A mesh layer as the document code sees it: the fields copied by the mesh
export allow-list, plus the two legacy field names (`colorMap`,
`colorMapNegative`) that the import shim looks for.  A legacy field being
absent from the JavaScript object is modelled as `none`. -/
structure MeshLayer where
  values : List ℚ
  nFrame4D : ℚ
  frame4D : ℚ
  outlineBorder : ℚ
  global_min : JsNum
  global_max : JsNum
  cal_min : JsNum
  cal_max : JsNum
  opacity : ℚ
  colormap : Option String
  colormapNegative : Option String
  colormapLabel : Option String
  useNegativeCmap : Bool
  colorMap : Option String
  colorMapNegative : Option String
deriving DecidableEq, Repr

/-- A mesh (or connectome) as stored in the document's mesh list.  Of the
export allow-list we model the identification, geometry, appearance and layer
fields; the remaining connectome-appearance and fiber scalars of the
allow-list are elided, as no verified property mentions them.  `type` is
`none` on plain deserialized objects (which carry no type marker). -/
structure MeshData where
  name : String
  type : Option MeshType
  pts : List ℚ
  tris : List Nat
  rgba255 : List Nat
  opacity : ℚ
  meshShaderIndex : ℚ
  layers : List MeshLayer
deriving DecidableEq, Repr

/-- The `NVLabel3D` collaborator, modelled by its text and anchor point; the
document code only ever copies labels by reference into lists. -/
structure NVLabel3D where
  text : String
  points : List ℚ
deriving DecidableEq, Repr

/-- The `DocumentData` record from the source.  `meshesString` holds the
structured-clone serialization of the mesh list; the serializer (an external
collaborator able to represent typed arrays) is modelled as the identity, so
the field holds the mesh list itself.  Likewise `connectomes` holds the
connectome records that `JSON.stringify` would have turned into strings. -/
structure DocumentData where
  title : String
  imageOptionsArray : List ImageOptions
  meshOptionsArray : List Unit
  opts : NVConfigOptions
  previewImageDataURL : String
  labels : List NVLabel3D
  encodedImageBlobs : List (List Nat)
  encodedDrawingBlob : List Nat
  meshesString : Option (List MeshData)
  sceneData : Option SceneData
  connectomes : Option (List MeshData)
  customData : Option String

/-- The `ExportDocumentData` record from the source (same serializer
conventions as `DocumentData`). -/
structure ExportDocumentData where
  encodedImageBlobs : List (List Nat)
  encodedDrawingBlob : Option (List Nat)
  previewImageDataURL : String
  imageOptionsMap : List (String × Nat)
  imageOptionsArray : List ImageOptions
  sceneData : SceneData
  opts : NVConfigOptions
  meshesString : List MeshData
  labels : List NVLabel3D
  connectomes : List MeshData
  customData : Option String

/-- The `NVDocument` class state.  The scene's observer slots are modelled by
the event traces the setters return (see `SceneEvent`), so only `sceneData`
is stored.  `imageOptionsMap` and `meshOptionsMap` are JavaScript `Map`s,
modelled as insertion-ordered association lists. -/
structure NVDocument where
  data : DocumentData
  sceneData : SceneData
  volumes : List NVImage
  meshDataObjects : Option (List MeshData)
  meshes : List MeshData
  drawBitmap : Option (List Nat)
  imageOptionsMap : List (String × Nat)
  meshOptionsMap : List (String × Nat)

/-- JavaScript `Map.prototype.set`: updates the existing entry in place or
appends a new one. -/
def mapSet (m : List (String × Nat)) (k : String) (v : Nat) : List (String × Nat) :=
  if m.any (fun p => p.1 == k) then
    m.map (fun p => if p.1 == k then (k, v) else p)
  else
    m ++ [(k, v)]

/-- JavaScript `Map.prototype.get`, `none` for a missing key. -/
def mapGet? (m : List (String × Nat)) (k : String) : Option Nat :=
  (m.find? (fun p => p.1 == k)).map (fun p => p.2)

/-- JavaScript `Map.prototype.has`. -/
def mapHas (m : List (String × Nat)) (k : String) : Bool :=
  m.any (fun p => p.1 == k)

/-- JavaScript `Map.prototype.delete` (ignoring the returned boolean). -/
def mapDelete (m : List (String × Nat)) (k : String) : List (String × Nat) :=
  m.filter (fun p => p.1 != k)

/-- The document produced by `new NVDocument()`: default `data`, scene data
initialized from `INITIAL_SCENE_DATA` with fresh pan and crosshair vectors. -/
def newNVDocument : NVDocument where
  data :=
    { title := "Untitled document"
      imageOptionsArray := []
      meshOptionsArray := []
      opts := DEFAULT_OPTIONS
      previewImageDataURL := ""
      labels := []
      encodedImageBlobs := []
      encodedDrawingBlob := []
      meshesString := none
      sceneData := none
      connectomes := none
      customData := none }
  sceneData :=
    { INITIAL_SCENE_DATA with pan2Dxyzmm := (0, 0, 0, 1), crosshairPos := (0.5, 0.5, 0.5) }
  volumes := []
  meshDataObjects := none
  meshes := []
  drawBitmap := none
  imageOptionsMap := []
  meshOptionsMap := []

/-- Method `NVDocument.hasImage`: membership of the image's identifier in the live
volumes list. -/
def NVDocument.hasImage (doc : NVDocument) (image : NVImage) : Bool :=
  (doc.volumes.find? (fun i => i.id == image.id)).isSome

/-- Method `NVDocument.hasImageFromUrl`: membership of the locator among registered
load-option records. -/
def NVDocument.hasImageFromUrl (doc : NVDocument) (url : String) : Bool :=
  (doc.data.imageOptionsArray.find? (fun i => i.url == url)).isSome

/-- Modelled collaborator: the last path segment of a URL
(`new URL(url).pathname.split('/').pop()`), approximated by stripping a query
string and taking the last `/`-separated component. -/
def urlLastSegment (url : String) : String :=
  ((((url.splitOn "?").headD "").splitOn "#").headD "").splitOn "/" |>.getLastD ""

/-- The display-name derivation inside `NVDocument.addImageOptions`: last URL
segment, compression suffix stripped, primary-format suffix guaranteed. -/
def deriveNameFromUrl (url : String) : String :=
  let base := urlLastSegment url
  let base := if base.toLower.endsWith ".gz" then base.dropRight 3 else base
  if base.toLower.endsWith ".nii" then base else base ++ ".nii"

/-- Method `NVDocument.addImageOptions`.  Note the shape of the source: the
`hasImage` guard encloses only the name derivation; the `imageType` tag, the
push onto `data.imageOptionsArray` and the `imageOptionsMap.set` run
unconditionally. -/
def NVDocument.addImageOptions (doc : NVDocument) (image : NVImage)
    (imageOptions : ImageOptions) : NVDocument :=
  let io :=
    if !doc.hasImage image && imageOptions.name == "" then
      if imageOptions.url != "" then
        { imageOptions with name := deriveNameFromUrl imageOptions.url }
      else
        { imageOptions with name := "untitled.nii" }
    else imageOptions
  let io := { io with imageType := some NVIMAGE_TYPE.NII }
  { doc with
      data := { doc.data with imageOptionsArray := doc.data.imageOptionsArray ++ [io] }
      imageOptionsMap := mapSet doc.imageOptionsMap image.id doc.data.imageOptionsArray.length }

/-- Method `NVDocument.removeImage`: splices the record at the identifier's recorded
index out of the sequence (when in range), deletes the registry entry, and
filters the image out of the live volumes — without renumbering any other
registry entry. -/
def NVDocument.removeImage (doc : NVDocument) (image : NVImage) : NVDocument :=
  let doc :=
    if mapHas doc.imageOptionsMap image.id then
      let index := (mapGet? doc.imageOptionsMap image.id).getD 0
      let arr :=
        if index < doc.data.imageOptionsArray.length then
          doc.data.imageOptionsArray.eraseIdx index
        else doc.data.imageOptionsArray
      { doc with
          data := { doc.data with imageOptionsArray := arr }
          imageOptionsMap := mapDelete doc.imageOptionsMap image.id }
    else doc
  { doc with volumes := doc.volumes.filter (fun i => i.id != image.id) }

/-- Method `NVDocument.getImageOptions`: registry lookup followed by a positional
array read.  The JavaScript code returns `null` on a registry miss and the
(possibly `undefined`) array element otherwise; both absent outcomes are
modelled as `none`. -/
def NVDocument.getImageOptions (doc : NVDocument) (image : NVImage) : Option ImageOptions :=
  match mapGet? doc.imageOptionsMap image.id with
  | some index => doc.data.imageOptionsArray[index]?
  | none => none

/-- The sentinel substitution applied to `meshThicknessOn2D` by
`NVDocument.json`: the numeric positive-infinity value becomes the literal
string token, everything else is untouched. -/
def exportMeshThickness : MeshThickness → MeshThickness
  | .num .posInf => .str "infinity"
  | m => m

/-- The sentinel reversal applied by `loadFromJSON` (and `loadFromFile`): the
literal string token becomes the numeric positive-infinity value. -/
def importMeshThickness : MeshThickness → MeshThickness
  | .str s => if s == "infinity" then .num .posInf else .str s
  | m => m

/-- The default load-option record synthesized by `NVDocument.json` when a
live volume has no registered record.  The source re-declares this literal
verbatim at both call sites (base-volume branch and overlay branch). -/
def defaultImageOptions : ImageOptions where
  name := ""
  colormap := "gray"
  opacity := 1
  pairedImgData := none
  cal_min := JsNum.nan
  cal_max := JsNum.nan
  trustCalMinMax := true
  percentileFrac := 0.02
  ignoreZeroVoxels := false
  useQFormNotSForm := false
  colormapNegative := ""
  colormapLabel := none
  imageType := some NVIMAGE_TYPE.NII
  frame4D := 0
  limitFrames4D := JsNum.nan
  url := ""
  urlImageData := ""
  alphaThreshold := false
  cal_minNeg := JsNum.nan
  cal_maxNeg := JsNum.nan
  colorbarVisible := true

/-- The in-place overwrite of a base-volume record from the live volume in
`NVDocument.json`: colormap, opacity and the `|| NaN`-coerced calibration
bounds. -/
def applyLiveBase (v : NVImage) (io : ImageOptions) : ImageOptions :=
  { io with
      colormap := v.colormap
      opacity := v.opacity
      cal_max := orNaN v.cal_max
      cal_min := orNaN v.cal_min }

/-- The in-place overwrite of an overlay-volume record from the live volume in
`NVDocument.json`: additionally copies `colormapLabel`. -/
def applyLiveOverlay (v : NVImage) (io : ImageOptions) : ImageOptions :=
  { io with
      colormap := v.colormap
      colormapLabel := v.colormapLabel
      opacity := v.opacity
      cal_max := orNaN v.cal_max
      cal_min := orNaN v.cal_min }

/-- JavaScript truthiness of an object reference: always true.  (Models the
dead `else { throw }` guard after the base-volume record has been
synthesized.) -/
def objTruthy (_io : ImageOptions) : Bool := true

/-- The export of the non-connectome meshes (`NVDocument.json` step:
per-mesh allow-list copy of each layer, resetting `frame4D` to 0; the copy
carries no legacy field names). -/
def copyLayer (layer : MeshLayer) : MeshLayer where
  values := layer.values
  nFrame4D := layer.nFrame4D
  frame4D := 0
  outlineBorder := layer.outlineBorder
  global_min := layer.global_min
  global_max := layer.global_max
  cal_min := layer.cal_min
  cal_max := layer.cal_max
  opacity := layer.opacity
  colormap := layer.colormap
  colormapNegative := layer.colormapNegative
  colormapLabel := layer.colormapLabel
  useNegativeCmap := layer.useNegativeCmap
  colorMap := none
  colorMapNegative := none

/-- The plain-value copy of one non-connectome mesh built by
`NVDocument.json` (the copy object carries no `type` marker). -/
def copyMesh (m : MeshData) : MeshData where
  name := m.name
  type := none
  pts := m.pts
  tris := m.tris
  rgba255 := m.rgba255
  opacity := m.opacity
  meshShaderIndex := m.meshShaderIndex
  layers := m.layers.map copyLayer

/-- The connectome records pushed onto `data.connectomes` by
`NVDocument.json` (`JSON.stringify(mesh.json())` modelled as the identity on
the record). -/
def connectomeExport (meshes : List MeshData) : List MeshData :=
  meshes.filter (fun m => m.type == some MeshType.CONNECTOME)

/-- The serialized generic mesh array built by `NVDocument.json`
(`JSON.stringify(serialize(meshes))` modelled as the identity). -/
def meshExport (meshes : List MeshData) : List MeshData :=
  (meshes.filter (fun m => m.type != some MeshType.CONNECTOME)).map copyMesh

/-- Result state of the overlay-volume loop inside `NVDocument.json`. -/
structure JsonLoopOut where
  doc : NVDocument
  ioArr : List ImageOptions
  blobs : List (List Nat)
  exMap : List (String × Nat)

/-- The overlay loop of `NVDocument.json` (`for (let i = 1; ...)`):
per volume, look its record up through the registry; a registry miss (`null`)
synthesizes the default record; a registry hit mutates the stored record in
place (normalizing a missing `imageType`, then overwriting the display
fields).  A stale registry index past the end of the sequence makes the
JavaScript property assignments throw a `TypeError` (the lookup yields
`undefined`, which the `=== null` check does not catch). -/
def NVDocument.jsonOverlays : List NVImage → Nat → NVDocument → List ImageOptions →
    List (List Nat) → List (String × Nat) → Except String JsonLoopOut
  | [], _, doc, ioArr, blobs, exMap => .ok ⟨doc, ioArr, blobs, exMap⟩
  | v :: vs, i, doc, ioArr, blobs, exMap =>
    match mapGet? doc.imageOptionsMap v.id with
    | none =>
      let io := applyLiveOverlay v defaultImageOptions
      NVDocument.jsonOverlays vs (i + 1) doc (ioArr ++ [io])
        (blobs ++ [uint8tob64 (v.toUint8Array none)]) (mapSet exMap v.id i)
    | some index =>
      match doc.data.imageOptionsArray[index]? with
      | none => .error "TypeError: cannot set properties of undefined"
      | some io₀ =>
        let io₁ :=
          if io₀.imageType = none then { io₀ with imageType := some NVIMAGE_TYPE.NII }
          else io₀
        let io := applyLiveOverlay v io₁
        let doc₁ :=
          { doc with
              data :=
                { doc.data with
                    imageOptionsArray := doc.data.imageOptionsArray.set index io } }
        NVDocument.jsonOverlays vs (i + 1) doc₁ (ioArr ++ [io])
          (blobs ++ [uint8tob64 (v.toUint8Array none)]) (mapSet exMap v.id i)

/-- The base-volume step of `NVDocument.json`: `this.imageOptionsArray[0]`
(synthesizing the default record when the sequence is empty, a fresh object
not written back) is overwritten in place with the base volume's live display
fields.  Returns the (mutated) record and the mutated sequence. -/
def jsonBaseRecord (doc : NVDocument) (v₀ : NVImage) : ImageOptions × List ImageOptions :=
  match doc.data.imageOptionsArray with
  | [] => (applyLiveBase v₀ defaultImageOptions, [])
  | io₀ :: rest =>
    let io := applyLiveBase v₀ io₀
    (io, io :: rest)

/-- The document state after the base-volume mutation of `NVDocument.json`. -/
def docWithBase (doc : NVDocument) (v₀ : NVImage) : NVDocument :=
  { doc with data := { doc.data with imageOptionsArray := (jsonBaseRecord doc v₀).2 } }

/-- Method `NVDocument.json`: converts the document to its export container.  The
returned document value carries the in-place mutations the export performs on
the stored load-option records. -/
def NVDocument.json (doc : NVDocument) : Except String (ExportDocumentData × NVDocument) :=
  let opts :=
    { doc.data.opts with
        meshThicknessOn2D := exportMeshThickness doc.data.opts.meshThicknessOn2D }
  match doc.volumes with
  | [] =>
    .ok
      ({ encodedImageBlobs := []
         encodedDrawingBlob := none
         previewImageDataURL := doc.data.previewImageDataURL
         imageOptionsMap := []
         imageOptionsArray := []
         sceneData := doc.sceneData
         opts := opts
         meshesString := meshExport doc.meshes
         labels := doc.data.labels
         connectomes := connectomeExport doc.meshes
         customData := doc.data.customData }, doc)
  | v₀ :: vrest =>
    let ioBase := (jsonBaseRecord doc v₀).1
    let doc₁ := docWithBase doc v₀
    if objTruthy ioBase then
      let blobs₀ := [uint8tob64 (v₀.toUint8Array none)]
      let drawing := doc.drawBitmap.map (fun bm => uint8tob64 (v₀.toUint8Array (some bm)))
      match NVDocument.jsonOverlays vrest 1 doc₁ [ioBase] blobs₀ (mapSet [] v₀.id 0) with
      | .error e => .error e
      | .ok out =>
        .ok
          ({ encodedImageBlobs := out.blobs
             encodedDrawingBlob := drawing
             previewImageDataURL := doc.data.previewImageDataURL
             imageOptionsMap := out.exMap
             imageOptionsArray := out.ioArr
             sceneData := doc.sceneData
             opts := opts
             meshesString := meshExport doc.meshes
             labels := doc.data.labels
             connectomes := connectomeExport doc.meshes
             customData := doc.data.customData }, out.doc)
    else .error "image options for base layer not found"

/-- The legacy color-map field rename shim applied per layer by
`NVDocument.deserializeMeshDataObjects`: a present legacy key is copied onto
the current key and then deleted; the negative variant is handled the same
way afterwards. -/
def renameShim (layer : MeshLayer) : MeshLayer :=
  let l₁ :=
    match layer.colorMap with
    | some v => { layer with colormap := some v, colorMap := none }
    | none => layer
  match l₁.colorMapNegative with
  | some v => { l₁ with colormapNegative := some v, colorMapNegative := none }
  | none => l₁

/-- Method `NVDocument.deserializeMeshDataObjects`: when a serialized mesh collection
is present, deserialize it (structured-clone deserializer modelled as the
identity) and post-process every layer of every mesh with the rename shim. -/
def NVDocument.deserializeMeshDataObjects (doc : NVDocument) : NVDocument :=
  match doc.data.meshesString with
  | some meshes =>
    { doc with
        meshDataObjects :=
          some (meshes.map (fun m => { m with layers := m.layers.map renameShim })) }
  | none => doc

/-- Method `NVDocument.loadFromJSON`: installs the container as the document's data,
reverses the mesh-thickness sentinel, merges the container's scene snapshot
over the baseline (a full snapshot record overrides every field; an absent
snapshot keeps the baseline), and runs the mesh deserialization shim. -/
def NVDocument.loadFromJSON (data : DocumentData) : NVDocument :=
  let doc := { newNVDocument with data := data }
  let doc :=
    { doc with
        data :=
          { doc.data with
              opts :=
                { doc.data.opts with
                    meshThicknessOn2D :=
                      importMeshThickness doc.data.opts.meshThicknessOn2D } } }
  let doc := { doc with sceneData := data.sceneData.getD INITIAL_SCENE_DATA }
  doc.deserializeMeshDataObjects

/-- The `opts` setter of `NVDocument`: `this.data.opts = { ...opts }` — a
record spread, copying every top-level field value (and therefore sharing the
array objects behind the `Ref` fields). -/
def NVDocument.setOpts (doc : NVDocument) (opts : NVConfigOptions) : NVDocument :=
  { doc with data := { doc.data with opts := opts } }

/-- Modelled collaborator `NVUtilities.arraysAreEqual`: elementwise equality
of numeric arrays. -/
def arraysAreEqual (a b : List ℚ) : Bool := a == b

/-- A connectome node (`NVConnectomeNode` from the collaborator types); the
display label attached by `updateLabels` is rendering state outside the
modelled node data. -/
structure NVConnectomeNode where
  name : String
  x : ℚ
  y : ℚ
  z : ℚ
  colorValue : ℚ
  sizeValue : ℚ
deriving DecidableEq, Repr

/-- A connectome edge (`NVConnectomeEdge`): the endpoints are node indices —
integers produced by loop counters — and a color value. -/
structure NVConnectomeEdge where
  first : Int
  second : Int
  colorValue : ℚ
deriving DecidableEq, Repr

/-- The graph state of an `NVConnectome`.  GPU geometry, labels and the
`nodesChanged` event target are rendering state outside this model;
`updateConnectome(gl)` and `updateLabels()` mutate only that state, never the
node and edge lists. -/
structure NVConnectome where
  nodes : List NVConnectomeNode
  edges : List NVConnectomeEdge
deriving DecidableEq, Repr

/-- Method `NVConnectome.updateConnectomeNodeByIndex`: replaces the node at the
index (the label/geometry refresh it triggers is outside the model). -/
def NVConnectome.updateConnectomeNodeByIndex (c : NVConnectome) (index : Nat)
    (updatedNode : NVConnectomeNode) : NVConnectome :=
  { c with nodes := c.nodes.set index updatedNode }

/-- The predicate of the `find` inside `updateConnectomeNodeByPoint`:
`NVUtilities.arraysAreEqual([node.x, node.y, node.z], point)`. -/
def nodeAtPoint (point : ℚ × ℚ × ℚ) (node : NVConnectomeNode) : Bool :=
  arraysAreEqual [node.x, node.y, node.z] [point.1, point.2.1, point.2.2]

/-- Method `NVConnectome.updateConnectomeNodeByPoint`.  The source's
`findIndex((n) => n === node)` locates, by reference identity, the object
`find` returned — the first index satisfying the coordinate predicate (an
earlier structurally-equal node would itself have matched the predicate
first).  A thrown error is returned together with the (unchanged) state. -/
def NVConnectome.updateConnectomeNodeByPoint (c : NVConnectome) (point : ℚ × ℚ × ℚ)
    (updatedNode : NVConnectomeNode) : Except String Unit × NVConnectome :=
  match c.nodes.find? (nodeAtPoint point) with
  | some _ =>
    let index := c.nodes.findIdx (nodeAtPoint point)
    (.ok (), c.updateConnectomeNodeByIndex index updatedNode)
  | none => (.error "Node with point to update does not exist", c)

/-- The `find` predicate of `addConnectomeEdge`:
`(f.first === first || f.second === first) && f.first + f.second === first + second`. -/
def addEdgeMatch (first second : Int) (f : NVConnectomeEdge) : Bool :=
  (f.first == first || f.second == first) && (f.first + f.second == first + second)

/-- Method `NVConnectome.addConnectomeEdge`: returns the existing matching edge
unchanged, or appends and returns a fresh edge (the GPU refresh is outside
the model). -/
def NVConnectome.addConnectomeEdge (c : NVConnectome) (first second : Int)
    (colorValue : ℚ) : NVConnectomeEdge × NVConnectome :=
  match c.edges.find? (addEdgeMatch first second) with
  | some edge => (edge, c)
  | none =>
    let edge : NVConnectomeEdge := { first := first, second := second, colorValue := colorValue }
    (edge, { c with edges := c.edges ++ [edge] })

/-- The `find` predicate of `deleteConnectomeEdge`:
`(f.first === first || f.first === second) && f.first + f.second === first + second`. -/
def deleteEdgeMatch (first second : Int) (f : NVConnectomeEdge) : Bool :=
  (f.first == first || f.first == second) && (f.first + f.second == first + second)

/-- Method `NVConnectome.deleteConnectomeEdge`.  On success the source filters with
`e !== edge`, removing by reference identity exactly the object `find`
returned — the element at the first predicate-matching position.  On failure
it throws and the state is unchanged. -/
def NVConnectome.deleteConnectomeEdge (c : NVConnectome) (first second : Int) :
    Except String NVConnectomeEdge × NVConnectome :=
  match c.edges.find? (deleteEdgeMatch first second) with
  | some edge =>
    (.ok edge,
     { c with edges := c.edges.eraseIdx (c.edges.findIdx (deleteEdgeMatch first second)) })
  | none => (.error "edge between first and second not found", c)

/-- An edge joins two endpoints when it connects them in either
orientation. -/
def edgeJoins (f : NVConnectomeEdge) (first second : Int) : Prop :=
  (f.first = first ∧ f.second = second) ∨ (f.first = second ∧ f.second = first)

instance (f : NVConnectomeEdge) (first second : Int) :
    Decidable (edgeJoins f first second) := by
  unfold edgeJoins
  infer_instance

/-- The tuple of every `ImageOptions` field except the display fields that
`NVDocument.json` overwrites (colormap, colormapLabel, opacity, calibration
bounds, imageType). -/
def nonDisplayPart (io : ImageOptions) :
    String × String × String × Option (List Nat) × Bool × ℚ × Bool × Bool ×
      String × ℚ × JsNum × Bool × JsNum × JsNum × Bool :=
  (io.name, io.url, io.urlImageData, io.pairedImgData, io.trustCalMinMax,
   io.percentileFrac, io.ignoreZeroVoxels, io.useQFormNotSForm, io.colormapNegative,
   io.frame4D, io.limitFrames4D, io.alphaThreshold, io.cal_minNeg, io.cal_maxNeg,
   io.colorbarVisible)

/-- Equality of every `ImageOptions` field except the display fields that
`NVDocument.json` overwrites. -/
def nonDisplayEq (old new : ImageOptions) : Prop :=
  nonDisplayPart new = nonDisplayPart old

/-- How `NVDocument.json` may change a stored load-option record: either it
is untouched, or only its display fields were overwritten from some live
volume of the document (`imageType` possibly normalized to the NII marker,
`colormapLabel` possibly copied from a live volume). -/
def displayRefreshed (vols : List NVImage) (old new : ImageOptions) : Prop :=
  new = old ∨
    (nonDisplayEq old new ∧
     (new.imageType = old.imageType ∨ new.imageType = some NVIMAGE_TYPE.NII) ∧
     (new.colormapLabel = old.colormapLabel ∨
       ∃ v, v ∈ vols ∧ new.colormapLabel = v.colormapLabel) ∧
     ∃ v, v ∈ vols ∧ new.colormap = v.colormap ∧ new.opacity = v.opacity ∧
       new.cal_max = orNaN v.cal_max ∧ new.cal_min = orNaN v.cal_min)

/-- The tuple of all document state except the contents of the load-option
sequence, of which only the length is kept: options record, scene data,
labels, registry mappings, volumes, meshes, drawing bitmap and the remaining
data fields. -/
def docShellPart (doc : NVDocument) :
    List NVImage × List MeshData × Option (List MeshData) × Option (List Nat) ×
      SceneData × List (String × Nat) × List (String × Nat) × String ×
      NVConfigOptions × List NVLabel3D × String × List (List Nat) × List Nat ×
      List Unit × Option (List MeshData) × Option SceneData ×
      Option (List MeshData) × Option String × Nat :=
  (doc.volumes, doc.meshes, doc.meshDataObjects, doc.drawBitmap, doc.sceneData,
   doc.imageOptionsMap, doc.meshOptionsMap, doc.data.title, doc.data.opts,
   doc.data.labels, doc.data.previewImageDataURL, doc.data.encodedImageBlobs,
   doc.data.encodedDrawingBlob, doc.data.meshOptionsArray, doc.data.meshesString,
   doc.data.sceneData, doc.data.connectomes, doc.data.customData,
   doc.data.imageOptionsArray.length)

/-- Equality of all document state except the contents of the load-option
sequence (whose length must still agree): the options record, scene data,
labels, registry mappings, volumes, meshes and drawing bitmap coincide. -/
def docShellEq (doc out : NVDocument) : Prop :=
  docShellPart out = docShellPart doc

/-- A load-option record differing from the default only in its name, used as
concrete test data. -/
def exRecord (nm : String) : ImageOptions := { defaultImageOptions with name := nm }

/-- A concrete volume with a given identifier, used as concrete test data. -/
def exImage (i : String) : NVImage where
  id := i
  colormap := "gray"
  colormapLabel := none
  opacity := 1
  cal_min := JsNum.fin 1
  cal_max := JsNum.fin 5
  payload := [7]

/-- An empty export container (fallback value for result extraction). -/
def emptyExport : ExportDocumentData where
  encodedImageBlobs := []
  encodedDrawingBlob := none
  previewImageDataURL := ""
  imageOptionsMap := []
  imageOptionsArray := []
  sceneData := INITIAL_SCENE_DATA
  opts := DEFAULT_OPTIONS
  meshesString := []
  labels := []
  connectomes := []
  customData := none

/-- Concrete document with one live volume, used to exercise duplicate
registration. -/
def c1doc : NVDocument := { newNVDocument with volumes := [exImage "a"] }

/-- The document after a first registration of the volume. -/
def c1doc₁ : NVDocument := c1doc.addImageOptions (exImage "a") (exRecord "first.nii")

/-- The document after registering the same volume a second time. -/
def c1doc₂ : NVDocument := c1doc₁.addImageOptions (exImage "a") (exRecord "second.nii")

/-- A volume whose live colormap differs from its registered record. -/
def c2img : NVImage := { exImage "a" with colormap := "hot" }

/-- Concrete document whose registered record (colormap "gray") disagrees
with the live volume (colormap "hot"). -/
def c2doc : NVDocument :=
  { newNVDocument with
      volumes := [c2img]
      data := { newNVDocument.data with imageOptionsArray := [exRecord "base.nii"] }
      imageOptionsMap := [("a", 0)] }

/-- The export result on `c2doc`. -/
def c2pair : ExportDocumentData × NVDocument :=
  match NVDocument.json c2doc with
  | .ok p => p
  | .error _ => (emptyExport, c2doc)

/-- A fresh document (mesh thickness at the positive-infinity sentinel). -/
def c3doc : NVDocument := newNVDocument

/-- The export result on `c3doc`. -/
def c3pair : ExportDocumentData × NVDocument :=
  match NVDocument.json c3doc with
  | .ok p => p
  | .error _ => (emptyExport, c3doc)

/-- Concrete document with two registered images ("a" at index 0, "b" at
index 1) and a third, unregistered record in the sequence. -/
def c4doc : NVDocument :=
  { newNVDocument with
      volumes := [exImage "a", exImage "b"]
      data :=
        { newNVDocument.data with
            imageOptionsArray := [exRecord "r0.nii", exRecord "r1.nii", exRecord "r2.nii"] }
      imageOptionsMap := [("a", 0), ("b", 1)] }

/-- Concrete document with a registered base volume and a second live volume
that has no registered load-option record. -/
def c6doc : NVDocument :=
  { newNVDocument with
      volumes := [exImage "a", exImage "b"]
      data := { newNVDocument.data with imageOptionsArray := [exRecord "r0.nii"] }
      imageOptionsMap := [("a", 0)] }

/-- The export result on `c6doc`. -/
def c6pair : ExportDocumentData × NVDocument :=
  match NVDocument.json c6doc with
  | .ok p => p
  | .error _ => (emptyExport, c6doc)

/-- A mesh layer carrying the legacy `colorMap` field name. -/
def c7layer : MeshLayer where
  values := []
  nFrame4D := 1
  frame4D := 0
  outlineBorder := 0
  global_min := JsNum.fin 0
  global_max := JsNum.fin 1
  cal_min := JsNum.fin 0
  cal_max := JsNum.fin 1
  opacity := 1
  colormap := none
  colormapNegative := none
  colormapLabel := none
  useNegativeCmap := false
  colorMap := some "viridis"
  colorMapNegative := none

/-- A serialized mesh carrying `c7layer`. -/
def c7mesh : MeshData where
  name := "m"
  type := none
  pts := []
  tris := []
  rgba255 := []
  opacity := 1
  meshShaderIndex := 0
  layers := [c7layer]

/-- Concrete document holding a serialized mesh collection with a legacy
layer. -/
def c7doc : NVDocument :=
  { newNVDocument with
      data := { newNVDocument.data with meshesString := some [c7mesh] } }

/-- Concrete connectome with two nodes and one edge joining them. -/
def c9conn : NVConnectome where
  nodes :=
    [{ name := "n0", x := 1, y := 2, z := 3, colorValue := 1, sizeValue := 1 },
     { name := "n1", x := 4, y := 5, z := 6, colorValue := 2, sizeValue := 1 }]
  edges := [{ first := 0, second := 1, colorValue := 3 }]

/-- A replacement node used in update tests. -/
def c9node : NVConnectomeNode where
  name := "n0x"
  x := 7
  y := 8
  z := 9
  colorValue := 5
  sizeValue := 2

theorem getElem?_eraseIdx_of_le {α : Type _} :
    ∀ (l : List α) (i j : Nat), i ≤ j → (l.eraseIdx i)[j]? = l[j + 1]? := by
  intro l
  induction l with
  | nil => intro i j _; simp [List.eraseIdx]
  | cons a t ih =>
    intro i j h
    cases i with
    | zero => simp [List.eraseIdx_cons_zero, List.getElem?_cons_succ]
    | succ i₁ =>
      cases j with
      | zero => omega
      | succ j₁ =>
        rw [List.eraseIdx_cons_succ, List.getElem?_cons_succ, List.getElem?_cons_succ]
        exact ih i₁ j₁ (by omega)

theorem mapGet?_delete_ne (a b : String) (h : a ≠ b) :
    ∀ m : List (String × Nat), mapGet? (mapDelete m a) b = mapGet? m b := by
  intro m
  induction m with
  | nil => rfl
  | cons p t ih =>
    by_cases hp : p.1 = a
    · have hb : (p.1 == b) = false := by
        simp only [beq_eq_false_iff_ne, ne_eq]
        intro hh
        exact h (hp ▸ hh)
      have hne : (p.1 != a) = false := by simp [hp]
      simp only [mapDelete, List.filter_cons, hne, if_false, Bool.false_eq_true]
      rw [show List.filter (fun q => q.1 != a) t = mapDelete t a from rfl, ih]
      simp [mapGet?, List.find?_cons, hb]
    · have hne : (p.1 != a) = true := by simp [hp]
      simp only [mapDelete, List.filter_cons, hne, if_true]
      by_cases hpb : p.1 = b
      · simp [mapGet?, List.find?_cons, hpb]
      · have hb : (p.1 == b) = false := by simp [hpb]
        simp only [mapGet?, List.find?_cons, hb]
        exact ih

theorem mapGet?_mapSet_self (k : String) (v : Nat) :
    ∀ m : List (String × Nat), mapGet? (mapSet m k v) k = some v := by
  intro m
  induction m with
  | nil => simp [mapSet, mapGet?]
  | cons p t ih =>
    by_cases hp : p.1 = k
    · have hany : ((p :: t).any fun q => q.1 == k) = true := by
        simp [List.any_cons, hp]
      simp [mapSet, hany, mapGet?, List.find?_cons, hp]
    · by_cases ht : (t.any fun q => q.1 == k) = true
      · have hany : ((p :: t).any fun q => q.1 == k) = true := by
          simp [List.any_cons, ht]
        have hpk : (p.1 == k) = false := by simp [hp]
        simp only [mapSet, hany, if_true, List.map_cons, hpk, Bool.false_eq_true, if_false,
          mapGet?, List.find?_cons]
        have := ih
        simp only [mapSet, ht, if_true] at this
        exact this
      · have hpk : (p.1 == k) = false := by simp [hp]
        have hany : ((p :: t).any fun q => q.1 == k) = false := by
          simp only [List.any_cons, hpk, Bool.false_or]
          exact Bool.eq_false_iff.mpr ht
        simp only [mapSet, hany, Bool.false_eq_true, if_false, List.cons_append,
          mapGet?, List.find?_cons, hpk]
        have := ih
        simp only [mapSet, ht, Bool.false_eq_true, if_false] at this
        exact this

/-- C5: setting azimuth or elevation writes the backing field and fires the
azimuth/elevation observer exactly once with the current pair; setting the
volume-scale multiplier fires the zoom observer exactly once with the new
scale and never the azimuth/elevation observer; setting crosshair position,
clip plane, clip-plane depth/azimuth/elevation or 2D pan fires no observer. -/
theorem scene_observer_contract (s : SceneData) (a e scale : ℚ)
    (p : ℚ × ℚ × ℚ) (cp dae : List ℚ) (pan : ℚ × ℚ × ℚ × ℚ) :
    setRenderAzimuth s a =
      ({ s with azimuth := a }, [SceneEvent.azimuthElevation a s.elevation]) ∧
    setRenderElevation s e =
      ({ s with elevation := e }, [SceneEvent.azimuthElevation s.azimuth e]) ∧
    setVolScaleMultiplier s scale =
      ({ s with volScaleMultiplier := scale }, [SceneEvent.zoom3D scale]) ∧
    (∀ az el, SceneEvent.azimuthElevation az el ∉ (setVolScaleMultiplier s scale).2) ∧
    (setCrosshairPos s p).2 = [] ∧
    (setCrosshairPos s p).1 = { s with crosshairPos := p } ∧
    (setClipPlane s cp).2 = [] ∧
    (setClipPlane s cp).1 = { s with clipPlane := cp } ∧
    (setClipPlaneDepthAziElev s dae).2 = [] ∧
    (setClipPlaneDepthAziElev s dae).1 = { s with clipPlaneDepthAziElev := dae } ∧
    (setPan2Dxyzmm s pan).2 = [] ∧
    (setPan2Dxyzmm s pan).1 = { s with pan2Dxyzmm := pan } := by
  refine ⟨rfl, rfl, rfl, ?_, rfl, rfl, rfl, rfl, rfl, rfl, rfl, rfl⟩
  intro az el
  simp [setVolScaleMultiplier]

/-- C1 counterexample: registering the volume of `c1doc` twice grows the
load-option sequence from one record to two, so the second `addImageOptions`
call with an already-registered identifier is not a no-op. -/
theorem addImageOptions_duplicate_cex :
    c1doc₂.data.imageOptionsArray.length ≠ c1doc₁.data.imageOptionsArray.length := by
  decide

/-- C1 (amended): a second `addImageOptions` call with an image whose
identifier is already present skips only the name derivation; it still tags
the record with the NII image type, appends it to the load-option sequence
(whose length grows by one), rebinds the identifier to the new last index,
and leaves every previously stored record in place. -/
theorem addImageOptions_duplicate_appends (doc : NVDocument) (image : NVImage)
    (io : ImageOptions) (h : doc.hasImage image = true) :
    (doc.addImageOptions image io).data.imageOptionsArray =
      doc.data.imageOptionsArray ++ [{ io with imageType := some NVIMAGE_TYPE.NII }] ∧
    (doc.addImageOptions image io).data.imageOptionsArray.length =
      doc.data.imageOptionsArray.length + 1 ∧
    (doc.addImageOptions image io).imageOptionsMap =
      mapSet doc.imageOptionsMap image.id doc.data.imageOptionsArray.length ∧
    mapGet? (doc.addImageOptions image io).imageOptionsMap image.id =
      some doc.data.imageOptionsArray.length ∧
    (doc.addImageOptions image io).data.imageOptionsArray.take
      doc.data.imageOptionsArray.length = doc.data.imageOptionsArray := by
  have hguard : (!doc.hasImage image && io.name == "") = false := by
    rw [h]
    rfl
  refine ⟨?_, ?_, ?_, ?_, ?_⟩ <;>
    simp [NVDocument.addImageOptions, hguard, mapGet?_mapSet_self,
      List.take_left]

/-- C1 witness: the amended behavior at the concrete duplicate
registration. -/
theorem addImageOptions_duplicate_appends_witness :
    c1doc₂.data.imageOptionsArray =
      c1doc₁.data.imageOptionsArray ++
        [{ exRecord "second.nii" with imageType := some NVIMAGE_TYPE.NII }] ∧
    mapGet? c1doc₂.imageOptionsMap "a" = some c1doc₁.data.imageOptionsArray.length := by
  have t :=
    addImageOptions_duplicate_appends c1doc₁ (exImage "a") (exRecord "second.nii") (by decide)
  exact ⟨t.1, t.2.2.2.1⟩

/-- C7: when a serialized mesh collection is present, deserialization maps
the rename shim over every layer of every mesh; the shim moves a present
legacy `colorMap` (resp. `colorMapNegative`) value onto the current field
name and deletes the legacy key, and leaves a layer without legacy names
unchanged. -/
theorem deserializeMeshDataObjects_renames (doc : NVDocument) (ms : List MeshData)
    (h : doc.data.meshesString = some ms) :
    doc.deserializeMeshDataObjects.meshDataObjects =
      some (ms.map fun m => { m with layers := m.layers.map renameShim }) ∧
    (∀ layer : MeshLayer, ∀ v : String, layer.colorMap = some v →
      (renameShim layer).colormap = some v ∧ (renameShim layer).colorMap = none) ∧
    (∀ layer : MeshLayer, ∀ v : String, layer.colorMapNegative = some v →
      (renameShim layer).colormapNegative = some v ∧
        (renameShim layer).colorMapNegative = none) ∧
    (∀ layer : MeshLayer, layer.colorMap = none → layer.colorMapNegative = none →
      renameShim layer = layer) := by
  refine ⟨?_, ?_, ?_, ?_⟩
  · simp [NVDocument.deserializeMeshDataObjects, h]
  · intro layer v hv
    cases hn : layer.colorMapNegative <;> simp [renameShim, hv, hn]
  · intro layer v hv
    cases hm : layer.colorMap <;> simp [renameShim, hv, hm]
  · intro layer hm hn
    simp [renameShim, hm, hn]

/-- C7 witness: the shim at the concrete legacy-layer document. -/
theorem deserializeMeshDataObjects_renames_witness :
    c7doc.deserializeMeshDataObjects.meshDataObjects =
      some ([c7mesh].map fun m => { m with layers := m.layers.map renameShim }) ∧
    (renameShim c7layer).colormap = some "viridis" ∧
    (renameShim c7layer).colorMap = none := by
  have t := deserializeMeshDataObjects_renames c7doc [c7mesh] (by rfl)
  exact ⟨t.1, (t.2.1 c7layer "viridis" (by rfl)).1, (t.2.1 c7layer "viridis" (by rfl)).2⟩

/-- C8 counterexample: after `doc.opts = DEFAULT_OPTIONS`, an in-place write
to the array object behind the assigned record's `backColor` reference
changes the value subsequently read from the document's options, so the
assignment is not a deep copy isolating the document from mutation through
the source record. -/
theorem setOpts_aliasing_cex :
    readArr (storeWrite DEFAULT_STORE DEFAULT_OPTIONS.backColor [1, 1, 1, 1])
        ((newNVDocument.setOpts DEFAULT_OPTIONS).data.opts.backColor) ≠
      readArr DEFAULT_STORE
        ((newNVDocument.setOpts DEFAULT_OPTIONS).data.opts.backColor) := by
  decide

/-- C8 (amended): the `opts =` assignment stores a shallow copy — every
top-level field value of the assigned record is copied (so the stored record
equals the assigned one, and later rebinding of the source record does not
affect the document), but array-valued fields keep the same references, so an
in-place mutation of the array behind the source record's `backColor` is
visible through the document's stored options. -/
theorem setOpts_shallow_copy (doc : NVDocument) (o : NVConfigOptions) (σ : Store)
    (v : List ℚ) (h : o.backColor < σ.length) :
    (doc.setOpts o).data.opts = o ∧
    (doc.setOpts o).data.opts.backColor = o.backColor ∧
    readArr (storeWrite σ o.backColor v) (doc.setOpts o).data.opts.backColor = v := by
  refine ⟨rfl, rfl, ?_⟩
  show readArr (storeWrite σ o.backColor v) o.backColor = v
  rw [readArr, storeWrite, List.getD_eq_getElem?_getD, List.getElem?_set]
  simp [h]

/-- C8 witness: the shallow-copy sharing at a concrete store. -/
theorem setOpts_shallow_copy_witness :
    (newNVDocument.setOpts DEFAULT_OPTIONS).data.opts = DEFAULT_OPTIONS ∧
    readArr (storeWrite DEFAULT_STORE DEFAULT_OPTIONS.backColor [1, 1, 1, 1])
        ((newNVDocument.setOpts DEFAULT_OPTIONS).data.opts.backColor) = [1, 1, 1, 1] := by
  have t := setOpts_shallow_copy newNVDocument DEFAULT_OPTIONS DEFAULT_STORE
    [1, 1, 1, 1] (by decide)
  exact ⟨t.1, t.2.2⟩

theorem deleteEdgeMatch_iff (a b : Int) (f : NVConnectomeEdge) :
    deleteEdgeMatch a b f = true ↔ edgeJoins f a b := by
  simp only [deleteEdgeMatch, edgeJoins, Bool.and_eq_true, Bool.or_eq_true, beq_iff_eq]
  constructor
  · intro h
    omega
  · intro h
    omega

theorem addEdgeMatch_iff (a b : Int) (f : NVConnectomeEdge) :
    addEdgeMatch a b f = true ↔ edgeJoins f a b := by
  simp only [addEdgeMatch, edgeJoins, Bool.and_eq_true, Bool.or_eq_true, beq_iff_eq]
  constructor
  · intro h
    omega
  · intro h
    omega

theorem find?_eraseIdx_findIdx {α : Type _} (p : α → Bool) :
    ∀ (l : List α) (e : α), l.find? p = some e →
      ∃ l₁ l₂, l = l₁ ++ e :: l₂ ∧ (∀ x ∈ l₁, p x = false) ∧
        l.eraseIdx (l.findIdx p) = l₁ ++ l₂ := by
  intro l
  induction l with
  | nil => intro e h; simp at h
  | cons a t ih =>
    intro e h
    by_cases hpa : p a = true
    · rw [List.find?_cons_of_pos _ hpa] at h
      have ha : a = e := by injection h
      subst ha
      refine ⟨[], t, rfl, ?_, ?_⟩
      · intro x hx; simp at hx
      · simp [List.findIdx_cons, hpa]
    · have hpa₂ : ¬ p a := by simpa using hpa
      rw [List.find?_cons_of_neg _ hpa₂] at h
      obtain ⟨l₁, l₂, heq, hall, herase⟩ := ih e h
      refine ⟨a :: l₁, l₂, by rw [List.cons_append, heq], ?_, ?_⟩
      · intro x hx
        rcases List.mem_cons.mp hx with hx | hx
        · subst hx; simpa using hpa₂
        · exact hall x hx
      · rw [List.findIdx_cons]
        have : (bif p a then 0 else List.findIdx p t + 1) = List.findIdx p t + 1 := by
          simp [Bool.eq_false_iff.mpr hpa₂]
        rw [this, List.eraseIdx_cons_succ, herase, List.cons_append]

/-- C9: `deleteConnectomeEdge` throws exactly when no stored edge joins the
two endpoints (in either orientation); otherwise it returns the first joining
edge and removes exactly that occurrence.  `updateConnectomeNodeByPoint`
throws when no node's coordinates equal the point; otherwise it replaces the
first node with those coordinates.  In both failure cases the connectome's
node and edge lists are returned unchanged. -/
theorem connectome_lookup_failures (c : NVConnectome) (first second : Int)
    (point : ℚ × ℚ × ℚ) (upd : NVConnectomeNode) :
    (∀ n : NVConnectomeNode, nodeAtPoint point n = true ↔
      (n.x = point.1 ∧ n.y = point.2.1 ∧ n.z = point.2.2)) ∧
    ((∃ f ∈ c.edges, edgeJoins f first second) →
      ∃ edge l₁ l₂, (c.deleteConnectomeEdge first second).1 = Except.ok edge ∧
        edgeJoins edge first second ∧ c.edges = l₁ ++ edge :: l₂ ∧
        (c.deleteConnectomeEdge first second).2.edges = l₁ ++ l₂ ∧
        (c.deleteConnectomeEdge first second).2.nodes = c.nodes) ∧
    ((¬ ∃ f ∈ c.edges, edgeJoins f first second) →
      (∃ msg, (c.deleteConnectomeEdge first second).1 = Except.error msg) ∧
      (c.deleteConnectomeEdge first second).2 = c) ∧
    ((∃ n ∈ c.nodes, nodeAtPoint point n = true) →
      (c.updateConnectomeNodeByPoint point upd).1 = Except.ok () ∧
      (c.updateConnectomeNodeByPoint point upd).2.nodes =
        c.nodes.set (c.nodes.findIdx (nodeAtPoint point)) upd ∧
      (c.updateConnectomeNodeByPoint point upd).2.edges = c.edges) ∧
    ((¬ ∃ n ∈ c.nodes, nodeAtPoint point n = true) →
      (∃ msg, (c.updateConnectomeNodeByPoint point upd).1 = Except.error msg) ∧
      (c.updateConnectomeNodeByPoint point upd).2 = c) := by
  refine ⟨?_, ?_, ?_, ?_, ?_⟩
  · intro n
    simp [nodeAtPoint, arraysAreEqual]
  · rintro ⟨f, hf, hjoins⟩
    have hsome : (c.edges.find? (deleteEdgeMatch first second)).isSome = true :=
      List.find?_isSome.mpr ⟨f, hf, (deleteEdgeMatch_iff first second f).mpr hjoins⟩
    obtain ⟨edge, hfind⟩ := Option.isSome_iff_exists.mp hsome
    obtain ⟨l₁, l₂, heq, _, herase⟩ :=
      find?_eraseIdx_findIdx (deleteEdgeMatch first second) c.edges edge hfind
    refine ⟨edge, l₁, l₂, ?_, ?_, heq, ?_, ?_⟩
    · simp [NVConnectome.deleteConnectomeEdge, hfind]
    · exact (deleteEdgeMatch_iff first second edge).mp (List.find?_some hfind)
    · simp [NVConnectome.deleteConnectomeEdge, hfind, herase]
    · simp [NVConnectome.deleteConnectomeEdge, hfind]
  · intro hno
    have hfind : c.edges.find? (deleteEdgeMatch first second) = none := by
      rw [List.find?_eq_none]
      intro x hx hpx
      exact hno ⟨x, hx, (deleteEdgeMatch_iff first second x).mp hpx⟩
    constructor
    · exact ⟨"edge between first and second not found", by
        simp [NVConnectome.deleteConnectomeEdge, hfind]⟩
    · simp [NVConnectome.deleteConnectomeEdge, hfind]
  · rintro ⟨n, hn, hp⟩
    have hsome : (c.nodes.find? (nodeAtPoint point)).isSome = true :=
      List.find?_isSome.mpr ⟨n, hn, hp⟩
    obtain ⟨node, hfind⟩ := Option.isSome_iff_exists.mp hsome
    refine ⟨?_, ?_, ?_⟩ <;>
      simp [NVConnectome.updateConnectomeNodeByPoint, hfind,
        NVConnectome.updateConnectomeNodeByIndex]
  · intro hno
    have hfind : c.nodes.find? (nodeAtPoint point) = none := by
      rw [List.find?_eq_none]
      intro x hx hpx
      exact hno ⟨x, hx, hpx⟩
    constructor
    · exact ⟨"Node with point to update does not exist", by
        simp [NVConnectome.updateConnectomeNodeByPoint, hfind]⟩
    · simp [NVConnectome.updateConnectomeNodeByPoint, hfind]

/-- C9 witness: the concrete two-node connectome — deleting a missing edge
and updating a node at a missing point leave the state unchanged; updating at
an existing node's coordinates replaces that node. -/
theorem connectome_lookup_failures_witness :
    (c9conn.deleteConnectomeEdge 0 2).2 = c9conn ∧
    (c9conn.updateConnectomeNodeByPoint (1, 2, 3) c9node).1 = Except.ok () ∧
    (c9conn.updateConnectomeNodeByPoint (1, 2, 3) c9node).2.nodes =
      c9conn.nodes.set (c9conn.nodes.findIdx (nodeAtPoint (1, 2, 3))) c9node ∧
    (c9conn.updateConnectomeNodeByPoint (9, 9, 9) c9node).2 = c9conn := by
  have t1 := connectome_lookup_failures c9conn 0 2 (1, 2, 3) c9node
  have t2 := connectome_lookup_failures c9conn 0 2 (9, 9, 9) c9node
  exact ⟨(t1.2.2.1 (by decide)).2, (t1.2.2.2.1 (by decide)).1,
    (t1.2.2.2.1 (by decide)).2.1, (t2.2.2.2.2 (by decide)).2⟩

/-- C10: `addConnectomeEdge` on a connectome that already stores an edge
joining the endpoints (in either orientation) returns a stored joining edge
and leaves the state — including that edge's colorValue — unchanged; with no
such edge it appends and returns the fresh edge. -/
theorem addConnectomeEdge_idempotent (c : NVConnectome) (first second : Int)
    (colorValue : ℚ) :
    ((∃ f ∈ c.edges, edgeJoins f first second) →
      (c.addConnectomeEdge first second colorValue).2 = c ∧
      (c.addConnectomeEdge first second colorValue).1 ∈ c.edges ∧
      edgeJoins (c.addConnectomeEdge first second colorValue).1 first second) ∧
    ((¬ ∃ f ∈ c.edges, edgeJoins f first second) →
      (c.addConnectomeEdge first second colorValue).1 =
        { first := first, second := second, colorValue := colorValue } ∧
      (c.addConnectomeEdge first second colorValue).2.edges =
        c.edges ++ [{ first := first, second := second, colorValue := colorValue }] ∧
      (c.addConnectomeEdge first second colorValue).2.nodes = c.nodes) := by
  constructor
  · rintro ⟨f, hf, hjoins⟩
    have hsome : (c.edges.find? (addEdgeMatch first second)).isSome = true :=
      List.find?_isSome.mpr ⟨f, hf, (addEdgeMatch_iff first second f).mpr hjoins⟩
    obtain ⟨edge, hfind⟩ := Option.isSome_iff_exists.mp hsome
    refine ⟨?_, ?_, ?_⟩
    · simp [NVConnectome.addConnectomeEdge, hfind]
    · have : (c.addConnectomeEdge first second colorValue).1 = edge := by
        simp [NVConnectome.addConnectomeEdge, hfind]
      rw [this]
      exact List.mem_of_find?_eq_some hfind
    · have : (c.addConnectomeEdge first second colorValue).1 = edge := by
        simp [NVConnectome.addConnectomeEdge, hfind]
      rw [this]
      exact (addEdgeMatch_iff first second edge).mp (List.find?_some hfind)
  · intro hno
    have hfind : c.edges.find? (addEdgeMatch first second) = none := by
      rw [List.find?_eq_none]
      intro x hx hpx
      exact hno ⟨x, hx, (addEdgeMatch_iff first second x).mp hpx⟩
    refine ⟨?_, ?_, ?_⟩ <;> simp [NVConnectome.addConnectomeEdge, hfind]

/-- C10 witness: re-adding the stored edge through the reversed orientation
is a no-op returning the stored edge; adding a genuinely new edge appends
it. -/
theorem addConnectomeEdge_idempotent_witness :
    (c9conn.addConnectomeEdge 1 0 7).2 = c9conn ∧
    (c9conn.addConnectomeEdge 1 0 7).1 ∈ c9conn.edges ∧
    (c9conn.addConnectomeEdge 0 5 7).2.edges =
      c9conn.edges ++ [{ first := 0, second := 5, colorValue := 7 }] := by
  have t1 := addConnectomeEdge_idempotent c9conn 1 0 7
  have t2 := addConnectomeEdge_idempotent c9conn 0 5 7
  exact ⟨(t1.1 (by decide)).1, (t1.1 (by decide)).2.1, (t2.2 (by decide)).2.1⟩

theorem mapHas_of_mapGet? (m : List (String × Nat)) (k : String) (i : Nat)
    (h : mapGet? m k = some i) : mapHas m k = true := by
  unfold mapGet? at h
  cases hf : m.find? (fun p => p.1 == k) with
  | none => rw [hf] at h; simp at h
  | some p =>
    have hps := List.find?_some hf
    rw [mapHas, List.any_eq_true]
    exact ⟨p, List.mem_of_find?_eq_some hf, hps⟩

theorem mapHas_delete_self (m : List (String × Nat)) (k : String) :
    mapHas (mapDelete m k) k = false := by
  rw [Bool.eq_false_iff]
  intro h
  rw [mapHas, List.any_eq_true] at h
  obtain ⟨p, hp, hpk⟩ := h
  have hmem := (List.mem_filter.mp hp).2
  simp only [bne_iff_ne, ne_eq] at hmem
  simp only [beq_iff_eq] at hpk
  exact hmem hpk

/-- C4: removing an image registered before another image deletes the
former's registry entry and splices its record out of the sequence, but the
latter's recorded index is left unrenumbered, so a subsequent lookup reads
the record at the stale position — the successor's record (or none), never
the record that was registered for it. -/
theorem removeImage_no_renumber (doc : NVDocument) (A B : NVImage) (iA iB : Nat)
    (hA : mapGet? doc.imageOptionsMap A.id = some iA)
    (hB : mapGet? doc.imageOptionsMap B.id = some iB)
    (hAB : A.id ≠ B.id) (hlt : iA < iB)
    (hiB : iB < doc.data.imageOptionsArray.length) :
    mapHas (doc.removeImage A).imageOptionsMap A.id = false ∧
    mapGet? (doc.removeImage A).imageOptionsMap B.id = some iB ∧
    (doc.removeImage A).data.imageOptionsArray =
      doc.data.imageOptionsArray.eraseIdx iA ∧
    (doc.removeImage A).getImageOptions B = doc.data.imageOptionsArray[iB + 1]? ∧
    (doc.data.imageOptionsArray.Nodup →
      ∀ r, doc.data.imageOptionsArray[iB]? = some r →
        (doc.removeImage A).getImageOptions B ≠ some r) := by
  have hHas : mapHas doc.imageOptionsMap A.id = true := mapHas_of_mapGet? _ _ _ hA
  have hiA : iA < doc.data.imageOptionsArray.length := Nat.lt_trans hlt hiB
  have hred : doc.removeImage A =
      { doc with
          data :=
            { doc.data with
                imageOptionsArray := doc.data.imageOptionsArray.eraseIdx iA }
          imageOptionsMap := mapDelete doc.imageOptionsMap A.id
          volumes := doc.volumes.filter (fun i => i.id != A.id) } := by
    simp [NVDocument.removeImage, hHas, hA, hiA]
  have hget : (doc.removeImage A).getImageOptions B =
      doc.data.imageOptionsArray[iB + 1]? := by
    rw [NVDocument.getImageOptions, hred]
    show (match mapGet? (mapDelete doc.imageOptionsMap A.id) B.id with
      | some index => (doc.data.imageOptionsArray.eraseIdx iA)[index]?
      | none => none) = doc.data.imageOptionsArray[iB + 1]?
    rw [mapGet?_delete_ne A.id B.id hAB, hB]
    exact getElem?_eraseIdx_of_le _ iA iB (Nat.le_of_lt hlt)
  refine ⟨?_, ?_, ?_, hget, ?_⟩
  · rw [hred]
    exact mapHas_delete_self doc.imageOptionsMap A.id
  · rw [hred]
    show mapGet? (mapDelete doc.imageOptionsMap A.id) B.id = some iB
    rw [mapGet?_delete_ne A.id B.id hAB]
    exact hB
  · rw [hred]
  · intro hnd r hr
    rw [hget]
    cases harr : doc.data.imageOptionsArray[iB + 1]? with
    | none => simp
    | some r₂ =>
      intro hcon
      have hr₂ : r₂ = r := by injection hcon
      obtain ⟨hl1, he1⟩ := List.getElem?_eq_some_iff.mp hr
      obtain ⟨hl2, he2⟩ := List.getElem?_eq_some_iff.mp harr
      have heq : doc.data.imageOptionsArray[iB + 1] =
          doc.data.imageOptionsArray[iB] := by
        rw [he2, he1, hr₂]
      have := (hnd.getElem_inj_iff).mp heq
      omega

/-- C4 witness: at the concrete document — after removing image "a"
(registered at index 0), image "b" still maps to index 1, and the lookup for
"b" returns the third record (its successor), not the record registered for
"b". -/
theorem removeImage_no_renumber_witness :
    mapHas (c4doc.removeImage (exImage "a")).imageOptionsMap "a" = false ∧
    mapGet? (c4doc.removeImage (exImage "a")).imageOptionsMap "b" = some 1 ∧
    (c4doc.removeImage (exImage "a")).getImageOptions (exImage "b") =
      c4doc.data.imageOptionsArray[2]? ∧
    (c4doc.removeImage (exImage "a")).getImageOptions (exImage "b") ≠
      some (exRecord "r1.nii") := by
  have t := removeImage_no_renumber c4doc (exImage "a") (exImage "b") 0 1
    (by rfl) (by rfl) (by decide) (by decide) (by decide)
  exact ⟨t.1, t.2.1, t.2.2.2.1, t.2.2.2.2 (by decide) (exRecord "r1.nii") (by rfl)⟩

theorem docShellEq_refl (doc : NVDocument) : docShellEq doc doc := rfl

theorem docShellEq_trans {a b c : NVDocument} (h₁ : docShellEq a b)
    (h₂ : docShellEq b c) : docShellEq a c := h₂.trans h₁

theorem displayRefreshed_base (vols : List NVImage) (v : NVImage)
    (old : ImageOptions) (hv : v ∈ vols) :
    displayRefreshed vols old (applyLiveBase v old) := by
  refine Or.inr ⟨rfl, Or.inl rfl, Or.inl rfl, v, hv, rfl, rfl, rfl, rfl⟩

theorem displayRefreshed_overlay (vols : List NVImage) (v : NVImage)
    (old io : ImageOptions) (hv : v ∈ vols)
    (hio : io = old ∨ io = { old with imageType := some NVIMAGE_TYPE.NII }) :
    displayRefreshed vols old (applyLiveOverlay v io) := by
  rcases hio with h | h <;> subst h
  · exact Or.inr ⟨rfl, Or.inl rfl, Or.inr ⟨v, hv, rfl⟩, v, hv, rfl, rfl, rfl, rfl⟩
  · exact Or.inr ⟨rfl, Or.inr rfl, Or.inr ⟨v, hv, rfl⟩, v, hv, rfl, rfl, rfl, rfl⟩

theorem displayRefreshed_trans (vols : List NVImage) (a b c : ImageOptions)
    (h₁ : displayRefreshed vols a b) (h₂ : displayRefreshed vols b c) :
    displayRefreshed vols a c := by
  rcases h₁ with rfl | ⟨hnd₁, hit₁, hlb₁, v₁, hv₁, hd₁⟩
  · exact h₂
  · rcases h₂ with rfl | ⟨hnd₂, hit₂, hlb₂, v₂, hv₂, hd₂⟩
    · exact Or.inr ⟨hnd₁, hit₁, hlb₁, v₁, hv₁, hd₁⟩
    · refine Or.inr ⟨hnd₂.trans hnd₁, ?_, ?_, v₂, hv₂, hd₂⟩
      · rcases hit₂ with h | h
        · rw [h]; exact hit₁
        · exact Or.inr h
      · rcases hlb₂ with h | h
        · rw [h]; exact hlb₁
        · exact Or.inr h

theorem jsonOverlays_shell :
    ∀ (vs : List NVImage) (i : Nat) (doc : NVDocument) (acc : List ImageOptions)
      (blobs : List (List Nat)) (exMap : List (String × Nat)) (out : JsonLoopOut),
      NVDocument.jsonOverlays vs i doc acc blobs exMap = Except.ok out →
      docShellEq doc out.doc := by
  intro vs
  induction vs with
  | nil =>
    intro i doc acc blobs exMap out h
    simp only [NVDocument.jsonOverlays, Except.ok.injEq] at h
    rw [← h]
    exact docShellEq_refl doc
  | cons v vt ih =>
    intro i doc acc blobs exMap out h
    simp only [NVDocument.jsonOverlays] at h
    split at h
    · exact ih _ _ _ _ _ _ h
    · split at h
      · simp at h
      · have h₁ := ih _ _ _ _ _ _ h
        refine docShellEq_trans ?_ h₁
        simp [docShellEq, docShellPart, List.length_set]

theorem jsonOverlays_ioArr :
    ∀ (vs : List NVImage) (i : Nat) (doc : NVDocument) (acc : List ImageOptions)
      (blobs : List (List Nat)) (exMap : List (String × Nat)) (out : JsonLoopOut),
      NVDocument.jsonOverlays vs i doc acc blobs exMap = Except.ok out →
      ∃ rest : List ImageOptions, out.ioArr = acc ++ rest ∧ rest.length = vs.length ∧
        ∀ (k : Nat) (w : NVImage), vs[k]? = some w →
          mapGet? doc.imageOptionsMap w.id = none →
          rest[k]? = some (applyLiveOverlay w defaultImageOptions) := by
  intro vs
  induction vs with
  | nil =>
    intro i doc acc blobs exMap out h
    simp only [NVDocument.jsonOverlays, Except.ok.injEq] at h
    refine ⟨[], ?_, rfl, ?_⟩
    · rw [← h]; simp
    · intro k w hk; simp at hk
  | cons v vt ih =>
    intro i doc acc blobs exMap out h
    simp only [NVDocument.jsonOverlays] at h
    split at h
    · next hm =>
      obtain ⟨rest, hout, hlen, hprop⟩ := ih _ _ _ _ _ _ h
      refine ⟨applyLiveOverlay v defaultImageOptions :: rest, ?_, by simp [hlen], ?_⟩
      · rw [hout, List.append_assoc, List.singleton_append]
      · intro k w hk hmk
        cases k with
        | zero =>
          simp only [List.getElem?_cons_zero, Option.some.injEq] at hk
          subst hk
          simp
        | succ k₁ =>
          rw [List.getElem?_cons_succ] at hk ⊢
          exact hprop k₁ w hk hmk
    · next index hm =>
      split at h
      · simp at h
      · next io₀ ha =>
        obtain ⟨rest, hout, hlen, hprop⟩ := ih _ _ _ _ _ _ h
        refine
          ⟨applyLiveOverlay v
              (if io₀.imageType = none then { io₀ with imageType := some NVIMAGE_TYPE.NII }
               else io₀) :: rest, ?_, by simp [hlen], ?_⟩
        · rw [hout, List.append_assoc, List.singleton_append]
        · intro k w hk hmk
          cases k with
          | zero =>
            simp only [List.getElem?_cons_zero, Option.some.injEq] at hk
            subst hk
            rw [hmk] at hm
            cases hm
          | succ k₁ =>
            rw [List.getElem?_cons_succ] at hk ⊢
            exact hprop k₁ w hk hmk

theorem mapGet?_mem (m : List (String × Nat)) (k : String) (i : Nat)
    (h : mapGet? m k = some i) : ∃ p ∈ m, p.2 = i := by
  unfold mapGet? at h
  cases hf : m.find? (fun p => p.1 == k) with
  | none => rw [hf] at h; simp at h
  | some p =>
    rw [hf] at h
    simp at h
    exact ⟨p, List.mem_of_find?_eq_some hf, h⟩

theorem jsonOverlays_refresh :
    ∀ (vs vols : List NVImage) (i : Nat) (doc : NVDocument) (acc : List ImageOptions)
      (blobs : List (List Nat)) (exMap : List (String × Nat)) (out : JsonLoopOut),
      (∀ x ∈ vs, x ∈ vols) →
      NVDocument.jsonOverlays vs i doc acc blobs exMap = Except.ok out →
      ∀ (j : Nat) (old : ImageOptions), doc.data.imageOptionsArray[j]? = some old →
        ∃ new, out.doc.data.imageOptionsArray[j]? = some new ∧
          displayRefreshed vols old new := by
  intro vs
  induction vs with
  | nil =>
    intro vols i doc acc blobs exMap out _ h j old hj
    simp only [NVDocument.jsonOverlays, Except.ok.injEq] at h
    rw [← h]
    exact ⟨old, hj, Or.inl rfl⟩
  | cons v vt ih =>
    intro vols i doc acc blobs exMap out hsub h j old hj
    have hv : v ∈ vols := hsub v (List.mem_cons_self v vt)
    have hsub' : ∀ x ∈ vt, x ∈ vols := fun x hx => hsub x (List.mem_cons_of_mem v hx)
    simp only [NVDocument.jsonOverlays] at h
    split at h
    · exact ih vols _ _ _ _ _ _ hsub' h j old hj
    · next index hm =>
      split at h
      · simp at h
      · next io₀ ha =>
        by_cases hji : j = index
        · subst hji
          have hold : old = io₀ := by
            rw [hj] at ha
            injection ha
          subst hold
          have hlen : j < doc.data.imageOptionsArray.length :=
            (List.getElem?_eq_some_iff.mp hj).1
          have hset :
              (doc.data.imageOptionsArray.set j
                  (applyLiveOverlay v
                    (if old.imageType = none then
                      { old with imageType := some NVIMAGE_TYPE.NII }
                     else old)))[j]? =
                some (applyLiveOverlay v
                  (if old.imageType = none then
                    { old with imageType := some NVIMAGE_TYPE.NII }
                   else old)) := by
            rw [List.getElem?_set]
            simp [hlen]
          obtain ⟨new, hnew, hdr⟩ := ih vols _ _ _ _ _ _ hsub' h j _ hset
          refine ⟨new, hnew, displayRefreshed_trans vols old _ new ?_ hdr⟩
          by_cases hit : old.imageType = none
          · rw [if_pos hit]
            exact displayRefreshed_overlay vols v old _ hv (Or.inr rfl)
          · rw [if_neg hit]
            exact displayRefreshed_overlay vols v old _ hv (Or.inl rfl)
        · have hj' :
              (doc.data.imageOptionsArray.set index
                  (applyLiveOverlay v
                    (if io₀.imageType = none then
                      { io₀ with imageType := some NVIMAGE_TYPE.NII }
                     else io₀)))[j]? = some old := by
            rw [List.getElem?_set_ne (fun hh => hji hh.symm)]
            exact hj
          exact ih vols _ _ _ _ _ _ hsub' h j old hj'

theorem jsonOverlays_total :
    ∀ (vs : List NVImage) (i : Nat) (doc : NVDocument) (acc : List ImageOptions)
      (blobs : List (List Nat)) (exMap : List (String × Nat)),
      (∀ p ∈ doc.imageOptionsMap, p.2 < doc.data.imageOptionsArray.length) →
      ∃ out, NVDocument.jsonOverlays vs i doc acc blobs exMap = Except.ok out := by
  intro vs
  induction vs with
  | nil =>
    intro i doc acc blobs exMap _
    exact ⟨⟨doc, acc, blobs, exMap⟩, rfl⟩
  | cons v vt ih =>
    intro i doc acc blobs exMap hwf
    cases hm : mapGet? doc.imageOptionsMap v.id with
    | none =>
      obtain ⟨out, hout⟩ := ih (i + 1) doc (acc ++ [applyLiveOverlay v defaultImageOptions])
        (blobs ++ [uint8tob64 (v.toUint8Array none)]) (mapSet exMap v.id i) hwf
      refine ⟨out, ?_⟩
      simp only [NVDocument.jsonOverlays]
      rw [hm]
      exact hout
    | some index =>
      have hlt : index < doc.data.imageOptionsArray.length := by
        obtain ⟨p, hp, hpi⟩ := mapGet?_mem doc.imageOptionsMap v.id index hm
        rw [← hpi]
        exact hwf p hp
      have ha : doc.data.imageOptionsArray[index]? =
          some doc.data.imageOptionsArray[index] :=
        List.getElem?_eq_getElem hlt
      have step : ∀ io₁ : ImageOptions,
          ∃ out, NVDocument.jsonOverlays vt (i + 1)
            { doc with
                data :=
                  { doc.data with
                      imageOptionsArray :=
                        doc.data.imageOptionsArray.set index (applyLiveOverlay v io₁) } }
            (acc ++ [applyLiveOverlay v io₁])
            (blobs ++ [uint8tob64 (v.toUint8Array none)])
            (mapSet exMap v.id i) = Except.ok out := by
        intro io₁
        apply ih
        intro p hp
        show p.2 < (doc.data.imageOptionsArray.set index (applyLiveOverlay v io₁)).length
        rw [List.length_set]
        exact hwf p hp
      obtain ⟨out, hout⟩ := step
        (if doc.data.imageOptionsArray[index].imageType = none then
          { doc.data.imageOptionsArray[index] with imageType := some NVIMAGE_TYPE.NII }
         else doc.data.imageOptionsArray[index])
      refine ⟨out, ?_⟩
      simp only [NVDocument.jsonOverlays, hm, ha]
      exact hout

theorem json_ok_elim (doc : NVDocument) (e : ExportDocumentData) (doc' : NVDocument)
    (h : NVDocument.json doc = Except.ok (e, doc')) :
    (doc.volumes = [] ∧ doc' = doc ∧ e.imageOptionsArray = [] ∧
      e.opts = { doc.data.opts with
        meshThicknessOn2D := exportMeshThickness doc.data.opts.meshThicknessOn2D } ∧
      e.sceneData = doc.sceneData ∧ e.labels = doc.data.labels) ∨
    (∃ (v₀ : NVImage) (vrest : List NVImage) (out : JsonLoopOut),
      doc.volumes = v₀ :: vrest ∧
      NVDocument.jsonOverlays vrest 1 (docWithBase doc v₀) [(jsonBaseRecord doc v₀).1]
        [uint8tob64 (v₀.toUint8Array none)] (mapSet [] v₀.id 0) = Except.ok out ∧
      e.imageOptionsArray = out.ioArr ∧
      e.opts = { doc.data.opts with
        meshThicknessOn2D := exportMeshThickness doc.data.opts.meshThicknessOn2D } ∧
      e.sceneData = doc.sceneData ∧ e.labels = doc.data.labels ∧ doc' = out.doc) := by
  cases hv : doc.volumes with
  | nil =>
    left
    simp only [NVDocument.json, hv] at h
    simp only [Except.ok.injEq, Prod.mk.injEq] at h
    obtain ⟨he, hd⟩ := h
    subst hd
    rw [← he]
    exact ⟨rfl, rfl, rfl, rfl, rfl, rfl⟩
  | cons v₀ vrest =>
    right
    simp only [NVDocument.json, hv, objTruthy, if_true] at h
    cases hjo : NVDocument.jsonOverlays vrest 1 (docWithBase doc v₀)
        [(jsonBaseRecord doc v₀).1] [uint8tob64 (v₀.toUint8Array none)]
        (mapSet [] v₀.id 0) with
    | error msg => rw [hjo] at h; simp at h
    | ok out =>
      rw [hjo] at h
      simp only [Except.ok.injEq, Prod.mk.injEq] at h
      obtain ⟨he, hd⟩ := h
      subst hd
      rw [← he]
      exact ⟨v₀, vrest, out, rfl, hjo, rfl, rfl, rfl, rfl, rfl⟩

/-- C2 counterexample: exporting `c2doc` overwrites, in place, the colormap
of the registry record stored in the document's load-option sequence (gray
becomes the live volume's hot), so export does mutate state reachable from
the source document. -/
theorem json_mutates_registry_cex :
    (c2pair.2.data.imageOptionsArray.map fun io => io.colormap) ≠
      (c2doc.data.imageOptionsArray.map fun io => io.colormap) := by
  decide

/-- C2 (amended): export leaves the document's options record, scene data,
labels, registry mapping, volumes, meshes, drawing bitmap and the load-option
sequence length unchanged, but it may overwrite stored load-option records in
place: any changed record differs from its previous value only in the display
fields (colormap, opacity, coerced calibration bounds — copied from some live
volume of the document — plus possibly a colormapLabel copied from a live
volume and an imageType normalized to the NII marker). -/
theorem json_mutates_only_display_fields (doc : NVDocument) (e : ExportDocumentData)
    (doc' : NVDocument) (h : NVDocument.json doc = Except.ok (e, doc')) :
    docShellEq doc doc' ∧
    ∀ (j : Nat) (old : ImageOptions), doc.data.imageOptionsArray[j]? = some old →
      ∃ new, doc'.data.imageOptionsArray[j]? = some new ∧
        displayRefreshed doc.volumes old new := by
  rcases json_ok_elim doc e doc' h with ⟨_, rfl, _⟩ |
    ⟨v₀, vrest, out, hv, hjo, _, _, _, _, hd⟩
  · exact ⟨docShellEq_refl doc', fun j old hj => ⟨old, hj, Or.inl rfl⟩⟩
  · subst hd
    have hsub : ∀ x ∈ vrest, x ∈ doc.volumes := by
      intro x hx
      rw [hv]
      exact List.mem_cons_of_mem v₀ hx
    have hv₀ : v₀ ∈ doc.volumes := by
      rw [hv]
      exact List.mem_cons_self v₀ vrest
    have hshell₁ : docShellEq (docWithBase doc v₀) out.doc :=
      jsonOverlays_shell vrest 1 (docWithBase doc v₀) _ _ _ out hjo
    have hshell₀ : docShellEq doc (docWithBase doc v₀) := by
      cases ha : doc.data.imageOptionsArray with
      | nil => simp [docShellEq, docShellPart, docWithBase, jsonBaseRecord, ha]
      | cons io₀ rest => simp [docShellEq, docShellPart, docWithBase, jsonBaseRecord, ha]
    refine ⟨docShellEq_trans hshell₀ hshell₁, ?_⟩
    intro j old hj
    cases ha : doc.data.imageOptionsArray with
    | nil => rw [ha] at hj; simp at hj
    | cons io₀ rest =>
      cases j with
      | zero =>
        rw [ha, List.getElem?_cons_zero] at hj
        have hold : io₀ = old := by injection hj
        subst hold
        have hdw : (docWithBase doc v₀).data.imageOptionsArray[0]? =
            some (applyLiveBase v₀ io₀) := by
          show (jsonBaseRecord doc v₀).2[0]? = some (applyLiveBase v₀ io₀)
          rw [jsonBaseRecord, ha]
          simp
        obtain ⟨new, hnew, hdr⟩ :=
          jsonOverlays_refresh vrest doc.volumes 1 (docWithBase doc v₀) _ _ _ out
            hsub hjo 0 (applyLiveBase v₀ io₀) hdw
        exact ⟨new, hnew,
          displayRefreshed_trans doc.volumes io₀ (applyLiveBase v₀ io₀) new
            (displayRefreshed_base doc.volumes v₀ io₀ hv₀) hdr⟩
      | succ k =>
        have hj' : (docWithBase doc v₀).data.imageOptionsArray[k + 1]? = some old := by
          show (jsonBaseRecord doc v₀).2[k + 1]? = some old
          rw [jsonBaseRecord, ha]
          rw [ha, List.getElem?_cons_succ] at hj
          simpa [List.getElem?_cons_succ] using hj
        obtain ⟨new, hnew, hdr⟩ :=
          jsonOverlays_refresh vrest doc.volumes 1 (docWithBase doc v₀) _ _ _ out
            hsub hjo (k + 1) old hj'
        exact ⟨new, hnew, hdr⟩

/-- C2 witness: the amended preservation at the concrete document. -/
theorem json_mutates_only_display_fields_witness : docShellEq c2doc c2pair.2 :=
  (json_mutates_only_display_fields c2doc c2pair.1 c2pair.2 (by rfl)).1

/-- C3: export turns the mesh-thickness option into the string token
"infinity" exactly when the in-memory value is numeric positive infinity
(any other value, in particular any finite numeric value, is exported
unchanged); import maps the token back to positive infinity, so
export-then-import round-trips the sentinel and every finite numeric value
exactly. -/
theorem meshThickness_sentinel_roundtrip (doc : NVDocument) (e : ExportDocumentData)
    (doc' : NVDocument) (h : NVDocument.json doc = Except.ok (e, doc')) :
    e.opts.meshThicknessOn2D = exportMeshThickness doc.data.opts.meshThicknessOn2D ∧
    (e.opts.meshThicknessOn2D ≠ doc.data.opts.meshThicknessOn2D ↔
      doc.data.opts.meshThicknessOn2D = MeshThickness.num JsNum.posInf) ∧
    (doc.data.opts.meshThicknessOn2D = MeshThickness.num JsNum.posInf →
      e.opts.meshThicknessOn2D = MeshThickness.str "infinity") ∧
    (∀ q : ℚ, doc.data.opts.meshThicknessOn2D = MeshThickness.num (JsNum.fin q) →
      e.opts.meshThicknessOn2D = MeshThickness.num (JsNum.fin q)) ∧
    importMeshThickness (MeshThickness.str "infinity") = MeshThickness.num JsNum.posInf ∧
    (doc.data.opts.meshThicknessOn2D = MeshThickness.num JsNum.posInf →
      importMeshThickness e.opts.meshThicknessOn2D = MeshThickness.num JsNum.posInf) ∧
    (∀ q : ℚ, doc.data.opts.meshThicknessOn2D = MeshThickness.num (JsNum.fin q) →
      importMeshThickness e.opts.meshThicknessOn2D = MeshThickness.num (JsNum.fin q)) ∧
    (∀ dd : DocumentData, (NVDocument.loadFromJSON dd).data.opts.meshThicknessOn2D =
      importMeshThickness dd.opts.meshThicknessOn2D) := by
  have hopts : e.opts = { doc.data.opts with
      meshThicknessOn2D := exportMeshThickness doc.data.opts.meshThicknessOn2D } := by
    rcases json_ok_elim doc e doc' h with ⟨_, _, _, ho, _⟩ |
      ⟨_, _, _, _, _, _, ho, _⟩ <;> exact ho
  have h1 : e.opts.meshThicknessOn2D =
      exportMeshThickness doc.data.opts.meshThicknessOn2D := by
    rw [hopts]
  refine ⟨h1, ?_, ?_, ?_, by decide, ?_, ?_, ?_⟩
  · rw [h1]
    rcases hM : doc.data.opts.meshThicknessOn2D with v | s
    · cases v <;> simp [exportMeshThickness]
    · simp [exportMeshThickness]
  · intro hM
    rw [h1, hM]
    rfl
  · intro q hM
    rw [h1, hM]
    rfl
  · intro hM
    rw [h1, hM]
    decide
  · intro q hM
    rw [h1, hM]
    rfl
  · intro dd
    cases hms : dd.meshesString <;>
      simp [NVDocument.loadFromJSON, NVDocument.deserializeMeshDataObjects, hms]

/-- C3 witness: exporting the fresh document (sentinel in memory) yields the
token, and importing the token restores the sentinel. -/
theorem meshThickness_sentinel_roundtrip_witness :
    c3pair.1.opts.meshThicknessOn2D = MeshThickness.str "infinity" ∧
    importMeshThickness c3pair.1.opts.meshThicknessOn2D =
      MeshThickness.num JsNum.posInf := by
  have t := meshThickness_sentinel_roundtrip c3doc c3pair.1 c3pair.2 (by rfl)
  exact ⟨t.2.2.1 (by rfl), t.2.2.2.2.2.1 (by rfl)⟩

/-- C6: exporting a document in which some secondary live volume has no
registered load-option record does not raise an error; the export sequence
gets, at that volume's position, the default record (empty name, colormap
"gray", opacity 1, NaN calibration bounds) overwritten with the live volume's
display fields, and one exported record per live volume. -/
theorem json_missing_record_defaults (doc : NVDocument) (i : Nat) (v : NVImage)
    (hv : doc.volumes[i]? = some v) (hi : 1 ≤ i)
    (hmiss : mapGet? doc.imageOptionsMap v.id = none)
    (hwf : ∀ p ∈ doc.imageOptionsMap, p.2 < doc.data.imageOptionsArray.length) :
    (∃ (e : ExportDocumentData) (doc' : NVDocument),
      NVDocument.json doc = Except.ok (e, doc')) ∧
    (∀ (e : ExportDocumentData) (doc' : NVDocument),
      NVDocument.json doc = Except.ok (e, doc') →
      e.imageOptionsArray[i]? = some (applyLiveOverlay v defaultImageOptions) ∧
      e.imageOptionsArray.length = doc.volumes.length) ∧
    defaultImageOptions.name = "" ∧ defaultImageOptions.colormap = "gray" ∧
    defaultImageOptions.opacity = 1 ∧ defaultImageOptions.cal_min = JsNum.nan ∧
    defaultImageOptions.cal_max = JsNum.nan ∧
    (applyLiveOverlay v defaultImageOptions).colormap = v.colormap ∧
    (applyLiveOverlay v defaultImageOptions).opacity = v.opacity ∧
    (applyLiveOverlay v defaultImageOptions).cal_max = orNaN v.cal_max ∧
    (applyLiveOverlay v defaultImageOptions).cal_min = orNaN v.cal_min := by
  cases hvol : doc.volumes with
  | nil => rw [hvol] at hv; simp at hv
  | cons v₀ vrest =>
    have hlen2 : (docWithBase doc v₀).data.imageOptionsArray.length =
        doc.data.imageOptionsArray.length := by
      show (jsonBaseRecord doc v₀).2.length = _
      cases ha : doc.data.imageOptionsArray <;> simp [jsonBaseRecord, ha]
    have hwf₁ : ∀ p ∈ (docWithBase doc v₀).imageOptionsMap,
        p.2 < (docWithBase doc v₀).data.imageOptionsArray.length := by
      intro p hp
      rw [hlen2]
      exact hwf p hp
    obtain ⟨out, hjo⟩ := jsonOverlays_total vrest 1 (docWithBase doc v₀)
      [(jsonBaseRecord doc v₀).1] [uint8tob64 (v₀.toUint8Array none)]
      (mapSet [] v₀.id 0) hwf₁
    refine ⟨?_, ?_, rfl, rfl, rfl, rfl, rfl, rfl, rfl, rfl, rfl⟩
    · simp only [NVDocument.json, hvol, objTruthy, if_true, hjo]
      exact ⟨_, _, rfl⟩
    · intro e doc' h
      rcases json_ok_elim doc e doc' h with ⟨hnil, _⟩ |
        ⟨v₀', vrest', out', hv', hjo', harr, _, _, _, _⟩
      · rw [hvol] at hnil; simp at hnil
      · rw [hvol] at hv'
        injection hv' with h1 h2
        subst h1
        subst h2
        obtain ⟨rest, hioArr, hrlen, hprop⟩ :=
          jsonOverlays_ioArr vrest 1 (docWithBase doc v₀) _ _ _ out' hjo'
        obtain ⟨k, rfl⟩ : ∃ k, i = k + 1 := ⟨i - 1, by omega⟩
        have hvk : vrest[k]? = some v := by
          rw [hvol, List.getElem?_cons_succ] at hv
          exact hv
        have hentry := hprop k v hvk hmiss
        constructor
        · rw [harr, hioArr, List.singleton_append, List.getElem?_cons_succ]
          exact hentry
        · rw [harr, hioArr]
          simp [hrlen, hvol]

/-- C6 witness: exporting the concrete document whose second volume has no
registered record succeeds and synthesizes the overwritten default record at
position 1. -/
theorem json_missing_record_defaults_witness :
    NVDocument.json c6doc = Except.ok (c6pair.1, c6pair.2) ∧
    c6pair.1.imageOptionsArray[1]? =
      some (applyLiveOverlay (exImage "b") defaultImageOptions) ∧
    c6pair.1.imageOptionsArray.length = c6doc.volumes.length := by
  have t := json_missing_record_defaults c6doc 1 (exImage "b") (by rfl) (by decide)
    (by rfl) (by decide)
  have hj : NVDocument.json c6doc = Except.ok (c6pair.1, c6pair.2) := by rfl
  exact ⟨hj, (t.2.1 c6pair.1 c6pair.2 hj).1, (t.2.1 c6pair.1 c6pair.2 hj).2⟩
